import Mathlib

/-!
# custom-s3 Terraform provider: embedding of `internal/provider`

A shallow embedding of the three source files of the provider
(`bucket_resource.go`, `bucket_data_source.go`, `provider.go`).

* Go strings are Lean strings (sequences of Unicode code points); Terraform
  hands the provider valid UTF-8 only.
* The S3 service, the clock and the environment are an explicit world that
  every handler threads through; each remote call is recorded in a trace
  together with its outcome.
* `os.Exit` is an explicit exit code in the result of a pass.
-/

namespace CustomS3

set_option autoImplicit false

/-! ## Go and framework string functions used by the handlers -/

/-- The call `strings.Replace(s, "\"", "", -1)` of the handlers: every
occurrence of the one-character string `"` is replaced by the empty string. -/
def removeQuotes (s : String) : String :=
  ⟨s.data.filter (fun c => c != '"')⟩

/-- The digit table `lowerhex` of Go's `strconv`. -/
def lowerhex (n : Nat) : Char :=
  ['0', '1', '2', '3', '4', '5', '6', '7', '8', '9', 'a', 'b', 'c', 'd', 'e', 'f'].getD (n % 16) '0'

/-- Go's `strconv.IsPrint`: the Latin-1 range is decided by comparisons, the
rest of Unicode by a table lookup, which is the parameter `table`. -/
def IsPrint (table : Char → Bool) (r : Char) : Bool :=
  if r.toNat ≤ 0xFF then
    if 0x20 ≤ r.toNat ∧ r.toNat ≤ 0x7E then true
    else if 0xA1 ≤ r.toNat ∧ r.toNat ≤ 0xFF then r.toNat != 0xAD
    else false
  else table r

/-- Go's `strconv.appendEscapedRune` as `strconv.Quote` calls it (quote
character `"`, neither ASCII-only nor graphic-only). -/
def appendEscapedRune (table : Char → Bool) (r : Char) : List Char :=
  if r = '"' ∨ r = '\\' then ['\\', r]
  else if IsPrint table r then [r]
  else if r.toNat = 0x07 then ['\\', 'a']
  else if r.toNat = 0x08 then ['\\', 'b']
  else if r.toNat = 0x0C then ['\\', 'f']
  else if r.toNat = 0x0A then ['\\', 'n']
  else if r.toNat = 0x0D then ['\\', 'r']
  else if r.toNat = 0x09 then ['\\', 't']
  else if r.toNat = 0x0B then ['\\', 'v']
  else if r.toNat < 0x20 ∨ r.toNat = 0x7F then
    ['\\', 'x', lowerhex (r.toNat / 16), lowerhex r.toNat]
  else if r.toNat < 0x10000 then
    ['\\', 'u', lowerhex (r.toNat / 4096), lowerhex (r.toNat / 256),
      lowerhex (r.toNat / 16), lowerhex r.toNat]
  else
    ['\\', 'U', lowerhex (r.toNat / 268435456), lowerhex (r.toNat / 16777216),
      lowerhex (r.toNat / 1048576), lowerhex (r.toNat / 65536),
      lowerhex (r.toNat / 4096), lowerhex (r.toNat / 256),
      lowerhex (r.toNat / 16), lowerhex r.toNat]

/-- Go's `strconv.Quote`, which is what `fmt.Sprintf("%q", s)` yields for a
string: the escaped runes between two double quotes. -/
def Quote (table : Char → Bool) (s : String) : String :=
  ⟨'"' :: (s.data.flatMap (appendEscapedRune table) ++ ['"'])⟩

/-- The three states of a framework value (`attr.ValueState`); the zero
value is `Null`. -/
inductive ValueState where
  | Null
  | Unknown
  | Known
  deriving DecidableEq, Repr

/-- The framework's `types.String` (`basetypes.StringValue`). -/
structure StringValue where
  state : ValueState
  value : String
  deriving DecidableEq, Repr

/-- The constructor `types.StringValue(s)`: a known string. -/
def types.StringValue (s : String) : StringValue := ⟨ValueState.Known, s⟩

/-- The zero value of `types.String`, which a struct literal leaves in a
field it does not mention: a null string. -/
def StringValue.zero : StringValue := ⟨ValueState.Null, ""⟩

def StringValue.IsNull (v : StringValue) : Bool := v.state == ValueState.Null

def StringValue.IsUnknown (v : StringValue) : Bool := v.state == ValueState.Unknown

/-- The method `ValueString`: the string of a known value, `""` otherwise. -/
def StringValue.ValueString (v : StringValue) : String :=
  match v.state with
  | ValueState.Known => v.value
  | _ => ""

/-- The method `String()` of `basetypes.StringValue`: `<unknown>`, `<null>`,
or the value rendered by `fmt.Sprintf("%q", value)`. -/
def StringValue.String (table : Char → Bool) (v : StringValue) : String :=
  if v.IsUnknown then "<unknown>"
  else if v.IsNull then "<null>"
  else Quote table v.value

/-! ## Diagnostics -/

inductive Severity where
  | Error
  | Warning
  deriving DecidableEq, Repr

/-- A framework diagnostic; `Path` is the attribute path of an attribute
diagnostic (`path.Root(name)`), absent for a plain one. -/
structure Diagnostic where
  Severity : Severity
  Summary : String
  Detail : String
  Path : Option String
  deriving DecidableEq, Repr

/-- `Diagnostics.Append` of the framework: each incoming diagnostic is added
at the end unless an equal one is already in the collection. -/
def Diagnostics.Append (diags : List Diagnostic) (incoming : List Diagnostic) : List Diagnostic :=
  incoming.foldl (fun acc d => if d ∈ acc then acc else acc ++ [d]) diags

def Diagnostics.AddError (diags : List Diagnostic) (summary detail : String) : List Diagnostic :=
  Diagnostics.Append diags [⟨Severity.Error, summary, detail, none⟩]

def Diagnostics.AddAttributeError (diags : List Diagnostic) (path summary detail : String) :
    List Diagnostic :=
  Diagnostics.Append diags [⟨Severity.Error, summary, detail, some path⟩]

def Diagnostics.HasError (diags : List Diagnostic) : Bool :=
  diags.any (fun d => d.Severity == Severity.Error)

/-! ## The remote store, the clock and the trace of remote calls -/

/-- A tag of the S3 API (`s3.Tag`). -/
structure Tag where
  Key : String
  Value : String
  deriving DecidableEq, Repr

/-- The civil fields of a `time.Time` in its own location, which are all
that `Format` reads. -/
structure Time where
  Year : Int
  Month : Nat
  Day : Nat
  Hour : Nat
  Minute : Nat
  Second : Nat
  deriving DecidableEq, Repr

/-- An entry of the `ListBuckets` response (`s3.Bucket`). The S3 response
carries a name and a creation date for every bucket, so the two pointers
are taken as set. -/
structure Bucket where
  Name : String
  CreationDate : Time
  deriving DecidableEq, Repr

/-- A request sent to S3 by a handler. -/
inductive S3Call where
  | CreateBucket (bucket : String)
  | PutBucketTagging (bucket : String) (tagSet : List Tag)
  | HeadBucket (bucket : String)
  | ListBuckets
  deriving DecidableEq, Repr

/-- A remote call together with its outcome: `err` is the message of the
error the call returned, `none` when the call succeeded. -/
structure Event where
  call : S3Call
  err : Option String
  deriving DecidableEq, Repr

/-- Everything outside the provider that a pass talks to, over a state `σ`
of the outside world: the S3 operations (each returns the new state of the
world and its error, if any) and the clock, read as
`time.Now().Format(time.RFC850)`. -/
structure World (σ : Type) where
  CreateBucket : σ → String → σ × Option String
  PutBucketTagging : σ → String → List Tag → σ × Option String
  HeadBucket : σ → String → σ × Option String
  ListBuckets : σ → σ × Except String (List Bucket)
  Now : σ → σ × String

/-- What a pass leaves behind: the world, the remote calls it issued in
order, the response handed back to the host, and the exit code when the
pass terminated the process (`os.Exit`). -/
structure Pass (σ ρ : Type) where
  world : σ
  trace : List Event
  resp : ρ
  exit : Option Nat

/-! ## The resource (`bucket_resource.go`) -/

/-- Order item data (`orderItemModel`). -/
structure orderItemModel where
  Date : StringValue
  Name : StringValue
  Tags : StringValue
  deriving DecidableEq, Repr

/-- The resource schema data (`orderResourceModel`). -/
structure orderResourceModel where
  ID : StringValue
  Buckets : List orderItemModel
  LastUpdated : StringValue
  deriving DecidableEq, Repr

/-- A request of the host to the resource: the model that `req.Plan.Get`
(or `req.State.Get`) decodes and the diagnostics of that decoding. -/
structure ResourceRequest where
  Model : orderResourceModel
  GetDiags : List Diagnostic

/-- The response of the resource: the diagnostics and the managed state;
`State` is `none` as long as no pass has written it. -/
structure ResourceResponse where
  Diagnostics : List Diagnostic
  State : Option orderResourceModel
  deriving DecidableEq, Repr

/-- The local `awsStringBucket` of the handlers: the rendering of the name
with every double quote removed. -/
def awsStringBucket (table : Char → Bool) (item : orderItemModel) : String :=
  removeQuotes (item.Name.String table)

/-- The local `tagValue` of `Create` and `Update`: the rendering of the tags
with every double quote removed. -/
def tagValue (table : Char → Bool) (item : orderItemModel) : String :=
  removeQuotes (item.Tags.String table)

/-- The local `tags` of `Create` and `Update`: one tag, of key `tfkey`. -/
def tags (table : Char → Bool) (item : orderItemModel) : List Tag :=
  [Tag.mk "tfkey" (tagValue table item)]

/-- The working variables of the loops of `Create` and `Update`. -/
structure LoopVars (σ : Type) where
  world : σ
  trace : List Event
  Diagnostics : List Diagnostic
  Buckets : List orderItemModel

/-- The working variables on entry to the loop: no remote call yet. -/
def loopStart {σ : Type} (s : σ) (diags : List Diagnostic) (buckets : List orderItemModel) :
    LoopVars σ :=
  { world := s, trace := [], Diagnostics := diags, Buckets := buckets }

/-- The loop `for index, item := range plan.Buckets` of `Create`, from item
`index` on: `items` are the elements not yet visited. The flag tells
whether the body executed `return`. -/
def createLoop (table : Char → Bool) {σ : Type} (W : World σ) :
    List orderItemModel → Nat → LoopVars σ → LoopVars σ × Bool
  | [], _, v => (v, false)
  | item :: rest, index, v =>
    let created := W.CreateBucket v.world (awsStringBucket table item)
    let trace1 := v.trace ++ [⟨S3Call.CreateBucket (awsStringBucket table item), created.2⟩]
    match created.2 with
    | some err =>
      ({ world := created.1, trace := trace1,
         Diagnostics := Diagnostics.AddError v.Diagnostics "Error creating order"
           ("Could not create order, unexpected error: " ++ err),
         Buckets := v.Buckets }, true)
    | none =>
      let tagged := W.PutBucketTagging created.1 (awsStringBucket table item) (tags table item)
      let trace2 := trace1 ++
        [⟨S3Call.PutBucketTagging (awsStringBucket table item) (tags table item), tagged.2⟩]
      match tagged.2 with
      | some _ =>
        ({ world := tagged.1, trace := trace2, Diagnostics := v.Diagnostics,
           Buckets := v.Buckets }, true)
      | none =>
        let now := W.Now tagged.1
        createLoop table W rest (index + 1)
          { world := now.1, trace := trace2, Diagnostics := v.Diagnostics,
            Buckets := v.Buckets.set index
              { Name := types.StringValue (awsStringBucket table item),
                Date := types.StringValue now.2,
                Tags := types.StringValue (tagValue table item) } }

/-- The method `orderResource.Create`. `resp.State.Set` stores the model and
reports no diagnostic. -/
def orderResource.Create (table : Char → Bool) {σ : Type} (W : World σ) (s : σ)
    (req : ResourceRequest) (resp : ResourceResponse) : Pass σ ResourceResponse :=
  let diags := Diagnostics.Append resp.Diagnostics req.GetDiags
  if Diagnostics.HasError diags then
    { world := s, trace := [], resp := { resp with Diagnostics := diags }, exit := none }
  else
    let plan := { req.Model with ID := types.StringValue "1" }
    let out := createLoop table W plan.Buckets 0 (loopStart s diags plan.Buckets)
    if out.2 then
      { world := out.1.world, trace := out.1.trace,
        resp := { resp with Diagnostics := out.1.Diagnostics }, exit := none }
    else
      let now := W.Now out.1.world
      let plan2 : orderResourceModel :=
        { ID := plan.ID, Buckets := out.1.Buckets, LastUpdated := types.StringValue now.2 }
      { world := now.1, trace := out.1.trace,
        resp := { Diagnostics := Diagnostics.Append out.1.Diagnostics [], State := some plan2 },
        exit := none }

/-- The loop of `orderResource.Read` over `state.Buckets`: the flag tells
whether the body called `os.Exit(1)`. -/
def readLoop (table : Char → Bool) {σ : Type} (W : World σ) :
    List orderItemModel → σ × List Event → (σ × List Event) × Bool
  | [], v => (v, false)
  | item :: rest, v =>
    let head := W.HeadBucket v.1 (awsStringBucket table item)
    let trace1 := v.2 ++ [⟨S3Call.HeadBucket (awsStringBucket table item), head.2⟩]
    match head.2 with
    | some _ => ((head.1, trace1), true)
    | none => readLoop table W rest (head.1, trace1)

/-- The method `orderResource.Read`. -/
def orderResource.Read (table : Char → Bool) {σ : Type} (W : World σ) (s : σ)
    (req : ResourceRequest) (resp : ResourceResponse) : Pass σ ResourceResponse :=
  let diags := Diagnostics.Append resp.Diagnostics req.GetDiags
  if Diagnostics.HasError diags then
    { world := s, trace := [], resp := { resp with Diagnostics := diags }, exit := none }
  else
    let out := readLoop table W req.Model.Buckets (s, [])
    if out.2 then
      { world := out.1.1, trace := out.1.2, resp := { resp with Diagnostics := diags },
        exit := some 1 }
    else
      { world := out.1.1, trace := out.1.2,
        resp := { Diagnostics := Diagnostics.Append diags [], State := some req.Model },
        exit := none }

/-- The loop `for index, item := range plan.Buckets` of `Update`. -/
def updateLoop (table : Char → Bool) {σ : Type} (W : World σ) :
    List orderItemModel → Nat → LoopVars σ → LoopVars σ × Bool
  | [], _, v => (v, false)
  | item :: rest, index, v =>
    let tagged := W.PutBucketTagging v.world (awsStringBucket table item) (tags table item)
    let trace1 := v.trace ++
      [⟨S3Call.PutBucketTagging (awsStringBucket table item) (tags table item), tagged.2⟩]
    match tagged.2 with
    | some _ =>
      ({ world := tagged.1, trace := trace1, Diagnostics := v.Diagnostics,
         Buckets := v.Buckets }, true)
    | none =>
      let now := W.Now tagged.1
      updateLoop table W rest (index + 1)
        { world := now.1, trace := trace1, Diagnostics := v.Diagnostics,
          Buckets := v.Buckets.set index
            { Name := types.StringValue (removeQuotes (awsStringBucket table item)),
              Date := types.StringValue now.2,
              Tags := types.StringValue (removeQuotes (tagValue table item)) } }

/-- The method `orderResource.Update`. -/
def orderResource.Update (table : Char → Bool) {σ : Type} (W : World σ) (s : σ)
    (req : ResourceRequest) (resp : ResourceResponse) : Pass σ ResourceResponse :=
  let diags := Diagnostics.Append resp.Diagnostics req.GetDiags
  if Diagnostics.HasError diags then
    { world := s, trace := [], resp := { resp with Diagnostics := diags }, exit := none }
  else
    let plan := { req.Model with ID := types.StringValue "1" }
    let out := updateLoop table W plan.Buckets 0 (loopStart s diags plan.Buckets)
    if out.2 then
      { world := out.1.world, trace := out.1.trace,
        resp := { resp with Diagnostics := out.1.Diagnostics }, exit := none }
    else
      let now := W.Now out.1.world
      let plan2 : orderResourceModel :=
        { ID := plan.ID, Buckets := out.1.Buckets, LastUpdated := types.StringValue now.2 }
      { world := now.1, trace := out.1.trace,
        resp := { Diagnostics := Diagnostics.Append out.1.Diagnostics [], State := some plan2 },
        exit := none }

/-! ## The data source (`bucket_data_source.go`) -/

/-- The schema data of one listed bucket (`bucketModel`). -/
structure bucketModel where
  Date : StringValue
  Name : StringValue
  Tags : StringValue
  deriving DecidableEq, Repr

/-- The data source schema data (`bucketDataSourceModel`). -/
structure bucketDataSourceModel where
  Buckets : List bucketModel
  deriving DecidableEq, Repr

/-- The response of the data source. -/
structure DataSourceResponse where
  Diagnostics : List Diagnostic
  State : Option bucketDataSourceModel
  deriving DecidableEq, Repr

/-- The decimal digit `n` as a character. -/
def digit (n : Nat) : Char := Char.ofNat (48 + n % 10)

/-- The decimal digits of `u`, most significant first (`fuel` bounds the
number of digits). -/
def decimal : Nat → Nat → List Char
  | 0, _ => []
  | fuel + 1, u => if u < 10 then [digit u] else decimal fuel (u / 10) ++ [digit u]

/-- Go's `time.appendInt`: the sign, then `x` in decimal, padded with zeros
to `width` digits; two fast paths write two and four digits directly. -/
def appendInt (x : Int) (width : Nat) : List Char :=
  let u := x.natAbs
  let sign := if x < 0 then ['-'] else []
  if width = 2 ∧ u < 100 then sign ++ [digit (u / 10), digit u]
  else if width = 4 ∧ u < 10000 then
    sign ++ [digit (u / 1000), digit (u / 100), digit (u / 10), digit u]
  else
    let digits := decimal (u + 1) u
    sign ++ (List.replicate (width - digits.length) '0' ++ digits)

/-- The call `t.Format("2006-01-02 15:04:05")`: year on four digits, then
month, day, hour, minute and second on two digits each. -/
def Time.Format (t : Time) : String :=
  ⟨appendInt t.Year 4 ++ ['-'] ++ appendInt t.Month 2 ++ ['-'] ++ appendInt t.Day 2 ++ [' '] ++
    appendInt t.Hour 2 ++ [':'] ++ appendInt t.Minute 2 ++ [':'] ++ appendInt t.Second 2⟩

/-- A civil time with a year of four digits: the times for which the layout
`2006-01-02 15:04:05` has its fixed width. -/
def Time.civil (t : Time) : Prop :=
  0 ≤ t.Year ∧ t.Year ≤ 9999 ∧ 1 ≤ t.Month ∧ t.Month ≤ 12 ∧ 1 ≤ t.Day ∧ t.Day ≤ 31 ∧
    t.Hour < 24 ∧ t.Minute < 60 ∧ t.Second < 60

instance (t : Time) : Decidable t.civil := by
  unfold Time.civil; infer_instance

/-- The loop `for _, bucket := range buckets.Buckets` of the data source. -/
def listLoop : List Bucket → bucketDataSourceModel → bucketDataSourceModel
  | [], state => state
  | bucket :: rest, state =>
    let bucketState : bucketModel :=
      { Date := types.StringValue bucket.CreationDate.Format,
        Name := types.StringValue bucket.Name,
        Tags := StringValue.zero }
    listLoop rest { Buckets := state.Buckets ++ [bucketState] }

/-- The method `bucketDataSource.Read`. `resp.State.Set` stores the model and
reports no diagnostic. -/
def bucketDataSource.Read {σ : Type} (W : World σ) (s : σ) (resp : DataSourceResponse) :
    Pass σ DataSourceResponse :=
  let listed := W.ListBuckets s
  match listed.2 with
  | Except.error err =>
    { world := listed.1, trace := [⟨S3Call.ListBuckets, some err⟩],
      resp := { resp with
        Diagnostics := Diagnostics.AddError resp.Diagnostics "Unable to Read Bucket data" err },
      exit := none }
  | Except.ok buckets =>
    let state := listLoop buckets { Buckets := [] }
    { world := listed.1, trace := [⟨S3Call.ListBuckets, none⟩],
      resp := { Diagnostics := Diagnostics.Append resp.Diagnostics [], State := some state },
      exit := none }

/-! ## The provider (`provider.go`) -/

/-- Provider schema data (`cs3ProviderModel`). -/
structure cs3ProviderModel where
  Region : StringValue
  AccessKey : StringValue
  SecretKey : StringValue
  deriving DecidableEq, Repr

/-- What `Configure` reads from its surroundings: the process environment
(`os.Getenv`, which yields `""` for an unset variable) and the AWS session
constructor `session.NewSession`, over a type `κ` of client handles. -/
structure ProviderHost (κ : Type) where
  Getenv : String → String
  NewSession : (region accessKey secretKey : String) → Except String κ

/-- The request to `Configure`: the decoded configuration and the diagnostics
of `req.Config.Get`. -/
structure ConfigureRequest where
  Config : cs3ProviderModel
  GetDiags : List Diagnostic

/-- The response of `Configure`: the diagnostics and the client handles
handed to the data source and to the resource. -/
structure ConfigureResponse (κ : Type) where
  Diagnostics : List Diagnostic
  DataSourceData : Option κ
  ResourceData : Option κ

/-- A pass of `Configure`: the response and the arguments of every call of
`session.NewSession` it made. -/
structure ConfigurePass (κ : Type) where
  resp : ConfigureResponse κ
  sessions : List (String × String × String)

/-- The three checks for an unknown configuration value. -/
def unknownChecks (config : cs3ProviderModel) (diags : List Diagnostic) : List Diagnostic :=
  let d1 := if config.Region.IsUnknown then
      Diagnostics.AddAttributeError diags "region" "Unknown Region"
        "The provider cannot create the Custom S3 client as there is an unknown configuration value for the AWS Region. "
    else diags
  let d2 := if config.AccessKey.IsUnknown then
      Diagnostics.AddAttributeError d1 "access_key" "Unknown Access Key value"
        "The provider cannot create the Custom S3 client as there is an unknown configuration value for the AWS Access Key. "
    else d1
  if config.SecretKey.IsUnknown then
    Diagnostics.AddAttributeError d2 "secret_key" "Unknown Secret Key value"
      "The provider cannot create the Custom S3 client as there is an unknown configuration value for the AWS Secret Key. "
  else d2

/-- The value a credential field resolves to: the environment value,
overridden by the declared value when that is not null. -/
def resolve (declared : StringValue) (env : String) : String :=
  if !declared.IsNull then declared.ValueString else env

/-- The diagnostic that `Configure` adds for an empty region. -/
def missingRegion : Diagnostic :=
  ⟨Severity.Error, "Missing Region",
    "The provider cannot create the AWS client as there is a missing or empty value for the Region. ",
    some "region"⟩

/-- The diagnostic that `Configure` adds for an empty access key. -/
def missingAccessKey : Diagnostic :=
  ⟨Severity.Error, "Missing Access Key",
    "The provider cannot create the AWS client as there is a missing or empty value for the Access Key. ",
    some "access_key"⟩

/-- The diagnostic that `Configure` adds for an empty secret key. -/
def missingSecretKey : Diagnostic :=
  ⟨Severity.Error, "Missing Secret Key",
    "The provider cannot create the AWS client as there is a missing or empty value for the Secret Key. ",
    some "secret_key"⟩

/-- The three checks for an empty resolved value. -/
def missingChecks (region access_key secret_key : String) (diags : List Diagnostic) :
    List Diagnostic :=
  let d1 := if region = "" then
      Diagnostics.AddAttributeError diags "region" "Missing Region"
        "The provider cannot create the AWS client as there is a missing or empty value for the Region. "
    else diags
  let d2 := if access_key = "" then
      Diagnostics.AddAttributeError d1 "access_key" "Missing Access Key"
        "The provider cannot create the AWS client as there is a missing or empty value for the Access Key. "
    else d1
  if secret_key = "" then
    Diagnostics.AddAttributeError d2 "secret_key" "Missing Secret Key"
      "The provider cannot create the AWS client as there is a missing or empty value for the Secret Key. "
  else d2

/-- The method `cs3Provider.Configure`. -/
def cs3Provider.Configure {κ : Type} (H : ProviderHost κ) (req : ConfigureRequest)
    (resp : ConfigureResponse κ) : ConfigurePass κ :=
  let diags := Diagnostics.Append resp.Diagnostics req.GetDiags
  if Diagnostics.HasError diags then
    { resp := { resp with Diagnostics := diags }, sessions := [] }
  else
    let config := req.Config
    let diags2 := unknownChecks config diags
    if Diagnostics.HasError diags2 then
      { resp := { resp with Diagnostics := diags2 }, sessions := [] }
    else
      let region := resolve config.Region (H.Getenv "AWS_REGION")
      let access_key := resolve config.AccessKey (H.Getenv "AWS_ACCESS_KEY_ID")
      let secret_key := resolve config.SecretKey (H.Getenv "AWS_SECRET_ACCESS_KEY")
      let diags3 := missingChecks region access_key secret_key diags2
      if Diagnostics.HasError diags3 then
        { resp := { resp with Diagnostics := diags3 }, sessions := [] }
      else
        match H.NewSession region access_key secret_key with
        | Except.error _ =>
          { resp := { resp with Diagnostics := diags3 },
            sessions := [(region, access_key, secret_key)] }
        | Except.ok client =>
          { resp := { Diagnostics := diags3, DataSourceData := some client,
                      ResourceData := some client },
            sessions := [(region, access_key, secret_key)] }

/-! ## Two concrete worlds -/

/-- The number of calls of each kind that a scripted world has answered. -/
structure Calls where
  creates : Nat
  tags : Nat
  heads : Nat
  deriving DecidableEq, Repr

/-- A script of remote outcomes: the error (if any) of the `i`-th
`CreateBucket`, `PutBucketTagging` and `HeadBucket` call, the answer of
`ListBuckets`, and the reading of the clock. `Create` issues one
`CreateBucket` per item and `Update` one `PutBucketTagging` per item, in list
order, so the `i`-th call of a kind is the call for item `i`. -/
structure Script where
  createErr : Nat → Option String
  tagErr : Nat → Option String
  headErr : Nat → Option String
  listing : Except String (List Bucket)
  clock : String

/-- The world that answers by a script. -/
def Script.world (sc : Script) : World Calls where
  CreateBucket c _ := ({ c with creates := c.creates + 1 }, sc.createErr c.creates)
  PutBucketTagging c _ _ := ({ c with tags := c.tags + 1 }, sc.tagErr c.tags)
  HeadBucket c _ := ({ c with heads := c.heads + 1 }, sc.headErr c.heads)
  ListBuckets c := (c, sc.listing)
  Now c := (c, sc.clock)

/-- A remote store that is the set of existing bucket names, with nobody
else acting on it: `CreateBucket` fails on a name that exists and adds it
otherwise; tagging and the existence check succeed exactly on the names
that exist. -/
def storeWorld (clock : String) (epoch : Time) : World (List String) where
  CreateBucket names name :=
    if name ∈ names then (names, some "BucketAlreadyExists") else (name :: names, none)
  PutBucketTagging names name _ :=
    if name ∈ names then (names, none) else (names, some "NoSuchBucket")
  HeadBucket names name :=
    if name ∈ names then (names, none) else (names, some "NotFound")
  ListBuckets names := (names, Except.ok (names.map (fun name => ⟨name, epoch⟩)))
  Now names := (names, clock)

/-- The two events of an item of `Create` whose calls both succeed. -/
def createEvents (table : Char → Bool) (item : orderItemModel) : List Event :=
  [⟨S3Call.CreateBucket (awsStringBucket table item), none⟩,
   ⟨S3Call.PutBucketTagging (awsStringBucket table item) (tags table item), none⟩]

/-- The event of an item of `Update` whose tag call succeeds. -/
def updateEvent (table : Char → Bool) (item : orderItemModel) : Event :=
  ⟨S3Call.PutBucketTagging (awsStringBucket table item) (tags table item), none⟩

/-- The error diagnostic of `Create` for a failed `CreateBucket`. -/
def createFailed (err : String) : Diagnostic :=
  ⟨Severity.Error, "Error creating order",
    "Could not create order, unexpected error: " ++ err, none⟩

/-- The record that `Create` writes over an item whose two calls succeeded. -/
def createRecord (table : Char → Bool) {σ : Type} (W : World σ) (item : orderItemModel)
    (v : LoopVars σ) : orderItemModel :=
  let created := W.CreateBucket v.world (awsStringBucket table item)
  let tagged := W.PutBucketTagging created.1 (awsStringBucket table item) (tags table item)
  { Name := types.StringValue (awsStringBucket table item),
    Date := types.StringValue (W.Now tagged.1).2,
    Tags := types.StringValue (tagValue table item) }

/-- The variables of the loop of `Create` after an item whose two calls
succeeded. -/
def createNext (table : Char → Bool) {σ : Type} (W : World σ) (item : orderItemModel)
    (index : Nat) (v : LoopVars σ) : LoopVars σ :=
  let created := W.CreateBucket v.world (awsStringBucket table item)
  let tagged := W.PutBucketTagging created.1 (awsStringBucket table item) (tags table item)
  { world := (W.Now tagged.1).1, trace := v.trace ++ createEvents table item,
    Diagnostics := v.Diagnostics,
    Buckets := v.Buckets.set index (createRecord table W item v) }

/-- What `Create` records for an item: the normalized name, the tag value
sent to the remote store, and a known date. -/
def recordedBy (table : Char → Bool) (item recorded : orderItemModel) : Prop :=
  recorded.Name = types.StringValue (awsStringBucket table item) ∧
    recorded.Tags = types.StringValue (tagValue table item) ∧
    recorded.Date.state = ValueState.Known

/-! ## Auxiliary definitions for the statements -/

/-- A plain string: every character is printable and is neither the double
quote nor the backslash, so that `strconv.Quote` escapes nothing in it. -/
def plain (table : Char → Bool) (s : String) : Prop :=
  ∀ c ∈ s.data, c ≠ '"' ∧ c ≠ '\\' ∧ IsPrint table c = true

instance (table : Char → Bool) (s : String) : Decidable (plain table s) := by
  unfold plain; infer_instance

/-- The two calls that `Create` issues for an item when the first succeeds. -/
def createCalls (table : Char → Bool) (item : orderItemModel) : List S3Call :=
  [S3Call.CreateBucket (awsStringBucket table item),
   S3Call.PutBucketTagging (awsStringBucket table item) (tags table item)]

/-- The call that `Update` issues for an item. -/
def updateCall (table : Char → Bool) (item : orderItemModel) : S3Call :=
  S3Call.PutBucketTagging (awsStringBucket table item) (tags table item)

/-- In a trace, every successful `CreateBucket` is immediately followed by a
`PutBucketTagging` for the same bucket name. -/
def taggedAfterCreate (trace : List Event) : Prop :=
  ∀ pre name post, trace = pre ++ ⟨S3Call.CreateBucket name, none⟩ :: post →
    ∃ tagSet err post2, post = ⟨S3Call.PutBucketTagging name tagSet, err⟩ :: post2

/-- The variables of the loop of `Update` after an item whose tag call
succeeded. -/
def updateNext (table : Char → Bool) {σ : Type} (W : World σ) (item : orderItemModel)
    (index : Nat) (v : LoopVars σ) : LoopVars σ :=
  let tagged := W.PutBucketTagging v.world (awsStringBucket table item) (tags table item)
  { world := (W.Now tagged.1).1, trace := v.trace ++ [updateEvent table item],
    Diagnostics := v.Diagnostics,
    Buckets := v.Buckets.set index
      { Name := types.StringValue (removeQuotes (awsStringBucket table item)),
        Date := types.StringValue (W.Now tagged.1).2,
        Tags := types.StringValue (removeQuotes (tagValue table item)) } }

/-- The event of an item of `Read` whose existence check succeeds. -/
def headEvent (table : Char → Bool) (item : orderItemModel) : Event :=
  ⟨S3Call.HeadBucket (awsStringBucket table item), none⟩

/-- The record that the data source builds for a remote entry: the name, the
formatted creation date, and tags left at their zero value. -/
def listedBucket (bucket : Bucket) : bucketModel :=
  { Date := types.StringValue bucket.CreationDate.Format,
    Name := types.StringValue bucket.Name,
    Tags := StringValue.zero }

/-- The missing-value diagnostics that `Configure` adds for three resolved
values, in the order of its three checks. -/
def missingOf (region access_key secret_key : String) : List Diagnostic :=
  (if region = "" then [missingRegion] else []) ++
    (if access_key = "" then [missingAccessKey] else []) ++
    (if secret_key = "" then [missingSecretKey] else [])

/-! ## Sample inputs -/

/-- A print table for the examples: every rune above Latin-1 is printable. -/
def allPrintable : Char → Bool := fun _ => true

/-- A desired item as the plan carries it: known name and tags, the computed
date still unknown. -/
def desiredItem (name tags : String) : orderItemModel :=
  { Date := ⟨ValueState.Unknown, ""⟩, Name := types.StringValue name,
    Tags := types.StringValue tags }

/-- A request whose model decodes without diagnostics. -/
def requestOf (items : List orderItemModel) : ResourceRequest :=
  { Model := { ID := ⟨ValueState.Unknown, ""⟩, Buckets := items,
               LastUpdated := ⟨ValueState.Unknown, ""⟩ },
    GetDiags := [] }

/-- The response as the host hands it to a pass: nothing in it yet. -/
def freshResponse : ResourceResponse := { Diagnostics := [], State := none }

/-- The script on which every call succeeds. -/
def scriptOk : Script :=
  { createErr := fun _ => none, tagErr := fun _ => none, headErr := fun _ => none,
    listing := Except.ok [], clock := "Monday, 02-Jan-06 15:04:05 UTC" }

/-- The script on which only the `k`-th `CreateBucket` call fails. -/
def failCreateAt (k : Nat) (err : String) : Script :=
  { scriptOk with createErr := fun i => if i = k then some err else none }

/-- The script on which only the `k`-th `PutBucketTagging` call fails. -/
def failTagAt (k : Nat) (err : String) : Script :=
  { scriptOk with tagErr := fun i => if i = k then some err else none }

/-- Three desired items. -/
def threeItems : List orderItemModel :=
  [desiredItem "alpha" "team=a", desiredItem "beta" "team=b", desiredItem "gamma" "team=c"]

/-- The pass of `Read` that follows a pass of `Create`: it runs in the world
that `Create` left, on the state that `Create` wrote (if it wrote one), which
the host decodes without diagnostics. -/
def readAfterCreate (table : Char → Bool) {σ : Type} (W : World σ) (s : σ)
    (req : ResourceRequest) (resp : ResourceResponse) : Option (Pass σ ResourceResponse) :=
  (orderResource.Create table W s req resp).resp.State.map
    (fun m => orderResource.Read table W (orderResource.Create table W s req resp).world
      { Model := m, GetDiags := [] } freshResponse)

/-- The creation date that the sample store reports. -/
def sampleEpoch : Time := ⟨2024, 3, 7, 9, 5, 0⟩

/-- The response as the host hands it to the data source. -/
def freshDataSourceResponse : DataSourceResponse := { Diagnostics := [], State := none }

/-- A remote inventory of two buckets. -/
def sampleInventory : List Bucket :=
  [⟨"alpha", sampleEpoch⟩, ⟨"beta", ⟨2023, 12, 31, 23, 59, 58⟩⟩]

/-- A sample host: no variable is set in the environment, and a session is
the triple it was built from. -/
def sampleHost : ProviderHost (String × String × String) :=
  { Getenv := fun _ => "",
    NewSession := fun region accessKey secretKey => Except.ok (region, accessKey, secretKey) }

/-- A sample configuration: region and secret key declared, access key
left null. -/
def sampleConfig : ConfigureRequest :=
  { Config := { Region := types.StringValue "eu-west-1", AccessKey := StringValue.zero,
                SecretKey := types.StringValue "s3cr3t" },
    GetDiags := [] }

/-- The response as the host hands it to `Configure`. -/
def freshConfigureResponse : ConfigureResponse (String × String × String) :=
  { Diagnostics := [], DataSourceData := none, ResourceData := none }

/-! # Theorems -/

/-! ## Diagnostics: basic facts -/

theorem Diagnostics.append_nil (diags : List Diagnostic) : Diagnostics.Append diags [] = diags := rfl

theorem Diagnostics.append_single {diags : List Diagnostic} {d : Diagnostic} (h : d ∉ diags) :
    Diagnostics.Append diags [d] = diags ++ [d] := by
  simp [Diagnostics.Append, h]

theorem Diagnostics.not_mem_of_hasError_false {diags : List Diagnostic} {d : Diagnostic}
    (h : Diagnostics.HasError diags = false) (hd : d.Severity = Severity.Error) : d ∉ diags := by
  intro hmem
  have : Diagnostics.HasError diags = true := by
    unfold Diagnostics.HasError
    exact List.any_eq_true.mpr ⟨d, hmem, by simp [hd]⟩
  simp [h] at this

theorem Diagnostics.addError_of_hasError_false {diags : List Diagnostic} (summary detail : String)
    (h : Diagnostics.HasError diags = false) :
    Diagnostics.AddError diags summary detail = diags ++ [⟨Severity.Error, summary, detail, none⟩] :=
  Diagnostics.append_single (Diagnostics.not_mem_of_hasError_false h rfl)

/-! ## The loop of `Create` -/

section CreateLoop

variable (table : Char → Bool) {σ : Type} (W : World σ)

theorem createLoop_cons_createFailed {item : orderItemModel} {rest : List orderItemModel}
    {index : Nat} {v : LoopVars σ} {err : String}
    (h : (W.CreateBucket v.world (awsStringBucket table item)).2 = some err) :
    createLoop table W (item :: rest) index v =
      ({ world := (W.CreateBucket v.world (awsStringBucket table item)).1,
         trace := v.trace ++ [⟨S3Call.CreateBucket (awsStringBucket table item), some err⟩],
         Diagnostics := Diagnostics.AddError v.Diagnostics "Error creating order"
           ("Could not create order, unexpected error: " ++ err),
         Buckets := v.Buckets }, true) := by
  simp only [createLoop, h]

theorem createLoop_cons_tagFailed {item : orderItemModel} {rest : List orderItemModel}
    {index : Nat} {v : LoopVars σ} {err : String}
    (hc : (W.CreateBucket v.world (awsStringBucket table item)).2 = none)
    (ht : (W.PutBucketTagging (W.CreateBucket v.world (awsStringBucket table item)).1
      (awsStringBucket table item) (tags table item)).2 = some err) :
    createLoop table W (item :: rest) index v =
      ({ world := (W.PutBucketTagging (W.CreateBucket v.world (awsStringBucket table item)).1
           (awsStringBucket table item) (tags table item)).1,
         trace := v.trace ++ [⟨S3Call.CreateBucket (awsStringBucket table item), none⟩,
           ⟨S3Call.PutBucketTagging (awsStringBucket table item) (tags table item), some err⟩],
         Diagnostics := v.Diagnostics,
         Buckets := v.Buckets }, true) := by
  simp only [createLoop, hc, ht, List.append_assoc, List.singleton_append]

theorem createLoop_cons_ok {item : orderItemModel} {rest : List orderItemModel}
    {index : Nat} {v : LoopVars σ}
    (hc : (W.CreateBucket v.world (awsStringBucket table item)).2 = none)
    (ht : (W.PutBucketTagging (W.CreateBucket v.world (awsStringBucket table item)).1
      (awsStringBucket table item) (tags table item)).2 = none) :
    createLoop table W (item :: rest) index v =
      createLoop table W rest (index + 1) (createNext table W item index v) := by
  simp only [createLoop, hc, ht, createNext, createRecord, createEvents, List.append_assoc,
    List.singleton_append]

theorem createLoop_append (xs ys : List orderItemModel) (index : Nat) (v : LoopVars σ) :
    createLoop table W (xs ++ ys) index v =
      if (createLoop table W xs index v).2 then createLoop table W xs index v
      else createLoop table W ys (index + xs.length) (createLoop table W xs index v).1 := by
  induction xs generalizing index v with
  | nil => simp [createLoop]
  | cons x xs ih =>
    rw [List.cons_append]
    cases hc : (W.CreateBucket v.world (awsStringBucket table x)).2 with
    | some e =>
      rw [createLoop_cons_createFailed table W hc, createLoop_cons_createFailed table W hc]; simp
    | none =>
      cases ht : (W.PutBucketTagging (W.CreateBucket v.world (awsStringBucket table x)).1
          (awsStringBucket table x) (tags table x)).2 with
      | some e =>
        rw [createLoop_cons_tagFailed table W hc ht, createLoop_cons_tagFailed table W hc ht]; simp
      | none =>
        rw [createLoop_cons_ok table W hc ht, createLoop_cons_ok table W hc ht, ih]
        simp only [List.length_cons]
        have : index + 1 + xs.length = index + (xs.length + 1) := by omega
        rw [this]

end CreateLoop

section
variable (table : Char → Bool) {σ : Type} (W : World σ)

/-- The three ways the loop of `Create` ends: it visits every item, or it
returns at a failed `CreateBucket`, or it returns at a failed
`PutBucketTagging`; the items before the last one visited have their two
successful events in the trace. -/
theorem createLoop_shape (items : List orderItemModel) (index : Nat) (v : LoopVars σ) :
    ((createLoop table W items index v).2 = false ∧
      (createLoop table W items index v).1.trace = v.trace ++ items.flatMap (createEvents table) ∧
      (createLoop table W items index v).1.Diagnostics = v.Diagnostics) ∨
    ((createLoop table W items index v).2 = true ∧ ∃ m item err, items[m]? = some item ∧
      (createLoop table W items index v).1.trace =
        v.trace ++ (items.take m).flatMap (createEvents table) ++
          [⟨S3Call.CreateBucket (awsStringBucket table item), some err⟩] ∧
      (createLoop table W items index v).1.Diagnostics =
        Diagnostics.AddError v.Diagnostics "Error creating order"
          ("Could not create order, unexpected error: " ++ err)) ∨
    ((createLoop table W items index v).2 = true ∧ ∃ m item err, items[m]? = some item ∧
      (createLoop table W items index v).1.trace =
        v.trace ++ (items.take m).flatMap (createEvents table) ++
          [⟨S3Call.CreateBucket (awsStringBucket table item), none⟩,
           ⟨S3Call.PutBucketTagging (awsStringBucket table item) (tags table item), some err⟩] ∧
      (createLoop table W items index v).1.Diagnostics = v.Diagnostics) := by
  induction items generalizing index v with
  | nil => left; simp [createLoop]
  | cons x xs ih =>
    cases hc : (W.CreateBucket v.world (awsStringBucket table x)).2 with
    | some e =>
      right; left
      rw [createLoop_cons_createFailed table W hc]
      exact ⟨rfl, 0, x, e, by simp, by simp, rfl⟩
    | none =>
      cases ht : (W.PutBucketTagging (W.CreateBucket v.world (awsStringBucket table x)).1
          (awsStringBucket table x) (tags table x)).2 with
      | some e =>
        right; right
        rw [createLoop_cons_tagFailed table W hc ht]
        exact ⟨rfl, 0, x, e, by simp, by simp, rfl⟩
      | none =>
        rw [createLoop_cons_ok table W hc ht]
        rcases ih (index + 1) (createNext table W x index v) with h | h | h
        · left
          refine ⟨h.1, ?_, ?_⟩
          · rw [h.2.1]; simp [createNext]
          · rw [h.2.2]; simp [createNext]
        · right; left
          obtain ⟨hf, m, item, err, hm, htr, hd⟩ := h
          refine ⟨hf, m + 1, item, err, by simpa using hm, ?_, ?_⟩
          · rw [htr]; simp [createNext]
          · rw [hd]; simp [createNext]
        · right; right
          obtain ⟨hf, m, item, err, hm, htr, hd⟩ := h
          refine ⟨hf, m + 1, item, err, by simpa using hm, ?_, ?_⟩
          · rw [htr]; simp [createNext]
          · rw [hd]; simp [createNext]

theorem set_length_append {α : Type} (done : List α) (x b : α) (xs : List α) :
    (done ++ x :: xs).set done.length b = done ++ b :: xs := by
  induction done with
  | nil => rfl
  | cons d ds ih => simp [ih]

/-- When the loop of `Create` visits every item, the items it was still to
visit are replaced, in place, by their records. -/
theorem createLoop_buckets (items done : List orderItemModel) (v : LoopVars σ)
    (hB : v.Buckets = done ++ items)
    (hflag : (createLoop table W items done.length v).2 = false) :
    ∃ recorded, (createLoop table W items done.length v).1.Buckets = done ++ recorded ∧
      List.Forall₂ (recordedBy table) items recorded := by
  induction items generalizing done v with
  | nil => exact ⟨[], by simp [createLoop, hB], List.Forall₂.nil⟩
  | cons x xs ih =>
    cases hc : (W.CreateBucket v.world (awsStringBucket table x)).2 with
    | some e => rw [createLoop_cons_createFailed table W hc] at hflag; simp at hflag
    | none =>
      cases ht : (W.PutBucketTagging (W.CreateBucket v.world (awsStringBucket table x)).1
          (awsStringBucket table x) (tags table x)).2 with
      | some e => rw [createLoop_cons_tagFailed table W hc ht] at hflag; simp at hflag
      | none =>
        rw [createLoop_cons_ok table W hc ht] at hflag ⊢
        have hB2 : (createNext table W x done.length v).Buckets =
            (done ++ [createRecord table W x v]) ++ xs := by
          simp [createNext, hB, set_length_append]
        have hlen : (done ++ [createRecord table W x v]).length = done.length + 1 := by simp
        rw [← hlen] at hflag ⊢
        obtain ⟨recorded, hrec, hall⟩ := ih _ _ hB2 hflag
        refine ⟨createRecord table W x v :: recorded, by rw [hrec]; simp, List.Forall₂.cons ?_ hall⟩
        simp [createRecord, recordedBy, types.StringValue]

end

theorem split_at_index {α : Type} (l : List α) (k : Nat) (x : α) (h : l[k]? = some x) :
    l = l.take k ++ x :: l.drop (k + 1) ∧ (l.take k).length = k := by
  induction l generalizing k with
  | nil => simp at h
  | cons a l ih =>
    cases k with
    | zero => simp at h; simp [h]
    | succ k =>
      simp at h
      obtain ⟨h1, h2⟩ := ih k h
      exact ⟨by simpa using h1, by simpa using h2⟩

theorem length_flatMap_createEvents (table : Char → Bool) (l : List orderItemModel) :
    (l.flatMap (createEvents table)).length = 2 * l.length := by
  induction l with
  | nil => rfl
  | cons a l ih => simp [List.flatMap_cons, createEvents, ih]; omega

/-! ## `Create` in terms of its loop -/

section
variable (table : Char → Bool) {σ : Type} (W : World σ)

theorem create_of_returned (s : σ) (req : ResourceRequest) (resp : ResourceResponse)
    (hget : Diagnostics.HasError (Diagnostics.Append resp.Diagnostics req.GetDiags) = false)
    (h : (createLoop table W req.Model.Buckets 0
      (loopStart s (Diagnostics.Append resp.Diagnostics req.GetDiags) req.Model.Buckets)).2 = true) :
    orderResource.Create table W s req resp =
      { world := (createLoop table W req.Model.Buckets 0
          (loopStart s (Diagnostics.Append resp.Diagnostics req.GetDiags) req.Model.Buckets)).1.world,
        trace := (createLoop table W req.Model.Buckets 0
          (loopStart s (Diagnostics.Append resp.Diagnostics req.GetDiags) req.Model.Buckets)).1.trace,
        resp := { resp with Diagnostics := (createLoop table W req.Model.Buckets 0
          (loopStart s (Diagnostics.Append resp.Diagnostics req.GetDiags)
            req.Model.Buckets)).1.Diagnostics },
        exit := none } := by
  simp only [orderResource.Create, hget, Bool.false_eq_true, if_false, h, if_true]

theorem create_of_completed (s : σ) (req : ResourceRequest) (resp : ResourceResponse)
    (hget : Diagnostics.HasError (Diagnostics.Append resp.Diagnostics req.GetDiags) = false)
    (h : (createLoop table W req.Model.Buckets 0
      (loopStart s (Diagnostics.Append resp.Diagnostics req.GetDiags) req.Model.Buckets)).2 = false) :
    orderResource.Create table W s req resp =
      { world := (W.Now (createLoop table W req.Model.Buckets 0
          (loopStart s (Diagnostics.Append resp.Diagnostics req.GetDiags)
            req.Model.Buckets)).1.world).1,
        trace := (createLoop table W req.Model.Buckets 0
          (loopStart s (Diagnostics.Append resp.Diagnostics req.GetDiags) req.Model.Buckets)).1.trace,
        resp :=
          { Diagnostics := (createLoop table W req.Model.Buckets 0
              (loopStart s (Diagnostics.Append resp.Diagnostics req.GetDiags)
                req.Model.Buckets)).1.Diagnostics,
            State := some ⟨types.StringValue "1",
              (createLoop table W req.Model.Buckets 0
                (loopStart s (Diagnostics.Append resp.Diagnostics req.GetDiags)
                  req.Model.Buckets)).1.Buckets,
              types.StringValue (W.Now (createLoop table W req.Model.Buckets 0
                (loopStart s (Diagnostics.Append resp.Diagnostics req.GetDiags)
                  req.Model.Buckets)).1.world).2⟩ },
        exit := none } := by
  simp only [orderResource.Create, hget, Bool.false_eq_true, if_false, h,
    Diagnostics.append_nil]

end

/-! ## `Create` against a scripted world -/

theorem scripted_createLoop_ok (table : Char → Bool) (sc : Script) (xs : List orderItemModel)
    (index : Nat) (v : LoopVars Calls) (n : Nat)
    (hc : v.world.creates = n) (ht : v.world.tags = n)
    (hok : ∀ i, i < xs.length → sc.createErr (n + i) = none ∧ sc.tagErr (n + i) = none) :
    (createLoop table sc.world xs index v).2 = false ∧
      (createLoop table sc.world xs index v).1.world.creates = n + xs.length ∧
      (createLoop table sc.world xs index v).1.world.tags = n + xs.length ∧
      (createLoop table sc.world xs index v).1.trace = v.trace ++ xs.flatMap (createEvents table) ∧
      (createLoop table sc.world xs index v).1.Diagnostics = v.Diagnostics := by
  induction xs generalizing index v n with
  | nil => simp [createLoop, hc, ht]
  | cons x xs ih =>
    have h0 := hok 0 (by simp)
    have hc1 : (sc.world.CreateBucket v.world (awsStringBucket table x)).2 = none := by
      simpa [Script.world, hc] using h0.1
    have ht1 : (sc.world.PutBucketTagging (sc.world.CreateBucket v.world (awsStringBucket table x)).1
        (awsStringBucket table x) (tags table x)).2 = none := by
      simpa [Script.world, ht] using h0.2
    rw [createLoop_cons_ok table sc.world hc1 ht1]
    have hrec := ih (index + 1) (createNext table sc.world x index v) (n + 1)
      (by simp [createNext, Script.world, hc]) (by simp [createNext, Script.world, ht])
      (fun i hi => by
        have := hok (i + 1) (by simpa using hi)
        rwa [show n + 1 + i = n + (i + 1) by omega])
    obtain ⟨h1, h2, h3, h4, h5⟩ := hrec
    refine ⟨h1, ?_, ?_, ?_, ?_⟩
    · rw [h2]; simp; omega
    · rw [h3]; simp; omega
    · rw [h4]; simp [createNext]
    · rw [h5]; simp [createNext]

/-- C1. In `orderResource.Create`, when the plan is read without error, the
`CreateBucket` and `PutBucketTagging` calls of items `0..k-1` succeed and the
`CreateBucket` call of item `k` fails, the pass stops at item `k`: the trace is
the two calls of each item before `k` followed by the failed create of item
`k` and nothing else (`2 * k + 1` calls), exactly one error diagnostic is
appended, the state of the response is left as it was, and the process is
not terminated. -/
theorem create_stops_at_failed_create (table : Char → Bool) (sc : Script)
    (req : ResourceRequest) (resp : ResourceResponse) (k : Nat) (item : orderItemModel)
    (err : String)
    (hget : Diagnostics.HasError (Diagnostics.Append resp.Diagnostics req.GetDiags) = false)
    (hk : req.Model.Buckets[k]? = some item)
    (hok : ∀ i, i < k → sc.createErr i = none ∧ sc.tagErr i = none)
    (hfail : sc.createErr k = some err) :
    (orderResource.Create table sc.world ⟨0, 0, 0⟩ req resp).trace =
        (req.Model.Buckets.take k).flatMap (createEvents table) ++
          [⟨S3Call.CreateBucket (awsStringBucket table item), some err⟩] ∧
      (orderResource.Create table sc.world ⟨0, 0, 0⟩ req resp).trace.length = 2 * k + 1 ∧
      (orderResource.Create table sc.world ⟨0, 0, 0⟩ req resp).resp.Diagnostics =
        Diagnostics.Append resp.Diagnostics req.GetDiags ++ [createFailed err] ∧
      (orderResource.Create table sc.world ⟨0, 0, 0⟩ req resp).resp.State = resp.State ∧
      (orderResource.Create table sc.world ⟨0, 0, 0⟩ req resp).exit = none := by
  obtain ⟨hsplit, hlen⟩ := split_at_index _ _ _ hk
  generalize hv : loopStart (⟨0, 0, 0⟩ : Calls) (Diagnostics.Append resp.Diagnostics req.GetDiags)
    req.Model.Buckets = v0
  have hv1 : v0.world.creates = 0 := by rw [← hv]; rfl
  have hv2 : v0.world.tags = 0 := by rw [← hv]; rfl
  have hv3 : v0.trace = [] := by rw [← hv]; rfl
  have hv4 : v0.Diagnostics = Diagnostics.Append resp.Diagnostics req.GetDiags := by rw [← hv]; rfl
  obtain ⟨p1, p2, p3, p4, p5⟩ := scripted_createLoop_ok table sc (req.Model.Buckets.take k) 0
    v0 0 hv1 hv2 (fun i hi => by simpa using hok i (by rw [hlen] at hi; exact hi))
  have hcf : (sc.world.CreateBucket
      (createLoop table sc.world (req.Model.Buckets.take k) 0 v0).1.world
        (awsStringBucket table item)).2 = some err := by
    show sc.createErr (createLoop table sc.world (req.Model.Buckets.take k) 0 v0).1.world.creates
      = some err
    rw [p2, hlen, Nat.zero_add]; exact hfail
  have hloop := createLoop_append table sc.world (req.Model.Buckets.take k)
    (item :: req.Model.Buckets.drop (k + 1)) 0 v0
  rw [← hsplit, p1, createLoop_cons_createFailed table sc.world hcf] at hloop
  simp only [Bool.false_eq_true, if_false] at hloop
  have hflag : (createLoop table sc.world req.Model.Buckets 0 v0).2 = true := by rw [hloop]
  rw [← hv] at hflag hloop
  rw [create_of_returned table sc.world _ req resp hget hflag, hloop, hv, p4, p5, hv3, hv4]
  refine ⟨by simp, ?_, ?_, rfl, rfl⟩
  · rw [List.nil_append, List.length_append, length_flatMap_createEvents, hlen]; rfl
  · exact Diagnostics.addError_of_hasError_false _ _ hget

/-! ## Quoting and removing quotes -/

theorem removeQuotes_quote (table : Char → Bool) (s : String) :
    removeQuotes (Quote table s) =
      ⟨(s.data.flatMap (appendEscapedRune table)).filter (fun c => c != '"')⟩ := by
  simp [removeQuotes, Quote, List.filter_cons, List.filter_append]

theorem filter_flatMap_plain (table : Char → Bool) (l : List Char)
    (h : ∀ c ∈ l, c ≠ '"' ∧ c ≠ '\\' ∧ IsPrint table c = true) :
    (l.flatMap (appendEscapedRune table)).filter (fun c => c != '"') = l := by
  induction l with
  | nil => rfl
  | cons c l ih =>
    obtain ⟨h1, h2, h3⟩ := h c (by simp)
    have hesc : appendEscapedRune table c = [c] := by
      simp [appendEscapedRune, h1, h2, h3]
    rw [List.flatMap_cons, hesc, List.filter_append, ih (fun d hd => h d (by simp [hd]))]
    simp [List.filter_cons, h1]

/-- On a plain string, rendering and removing the quotes is the identity. -/
theorem removeQuotes_quote_plain (table : Char → Bool) (s : String) (h : plain table s) :
    removeQuotes (Quote table s) = s := by
  rw [removeQuotes_quote, filter_flatMap_plain table s.data h]

theorem removeQuotes_string_known_plain (table : Char → Bool) (v : StringValue)
    (hk : v.state = ValueState.Known) (h : plain table v.value) :
    removeQuotes (v.String table) = v.value := by
  simp [StringValue.String, StringValue.IsUnknown, StringValue.IsNull, hk,
    removeQuotes_quote_plain table _ h]

/-- Whatever the rendering, no double quote is left in a normalized string. -/
theorem quote_not_mem_removeQuotes (s : String) : '"' ∉ (removeQuotes s).data := by
  simp [removeQuotes, List.mem_filter]

/-! ## Positions in a trace of successful items -/

theorem flatMap_createEvents_getElem (table : Char → Bool) (l : List orderItemModel) (i : Nat)
    (item : orderItemModel) (h : l[i]? = some item) :
    (l.flatMap (createEvents table))[2 * i]? =
        some ⟨S3Call.CreateBucket (awsStringBucket table item), none⟩ ∧
      (l.flatMap (createEvents table))[2 * i + 1]? =
        some ⟨S3Call.PutBucketTagging (awsStringBucket table item) (tags table item), none⟩ := by
  induction l generalizing i with
  | nil => simp at h
  | cons a l ih =>
    cases i with
    | zero =>
      simp at h
      subst h
      simp [List.flatMap_cons, createEvents]
    | succ i =>
      simp at h
      have := ih i h
      have e1 : 2 * (i + 1) = 2 * i + 1 + 1 := by omega
      rw [e1]
      simpa [List.flatMap_cons, createEvents] using this

theorem forall₂_getElem {α β : Type} {R : α → β → Prop} {l₁ : List α} {l₂ : List β}
    (h : List.Forall₂ R l₁ l₂) (i : Nat) (a : α) (ha : l₁[i]? = some a) :
    ∃ b, l₂[i]? = some b ∧ R a b := by
  induction h generalizing i with
  | nil => simp at ha
  | cons hab _ ih =>
    cases i with
    | zero => simp at ha; subst ha; exact ⟨_, by simp, hab⟩
    | succ i => simp at ha; simpa using ih i ha

/-! ## A fully successful `Create` -/

section
variable (table : Char → Bool) {σ : Type} (W : World σ)

theorem create_trace_eq (s : σ) (req : ResourceRequest) (resp : ResourceResponse)
    (hget : Diagnostics.HasError (Diagnostics.Append resp.Diagnostics req.GetDiags) = false) :
    (orderResource.Create table W s req resp).trace =
      (createLoop table W req.Model.Buckets 0
        (loopStart s (Diagnostics.Append resp.Diagnostics req.GetDiags) req.Model.Buckets)).1.trace := by
  cases h : (createLoop table W req.Model.Buckets 0
      (loopStart s (Diagnostics.Append resp.Diagnostics req.GetDiags) req.Model.Buckets)).2 with
  | true => rw [create_of_returned table W s req resp hget h]
  | false => rw [create_of_completed table W s req resp hget h]

/-- When the plan is read without error and every remote call of the pass
succeeds, `Create` visits every item: the trace is the two successful calls
of each item in order, and the state is written with one record per item. -/
theorem create_success (s : σ) (req : ResourceRequest) (resp : ResourceResponse)
    (hget : Diagnostics.HasError (Diagnostics.Append resp.Diagnostics req.GetDiags) = false)
    (hall : ∀ e ∈ (orderResource.Create table W s req resp).trace, e.err = none) :
    (createLoop table W req.Model.Buckets 0
        (loopStart s (Diagnostics.Append resp.Diagnostics req.GetDiags)
          req.Model.Buckets)).2 = false ∧
      (orderResource.Create table W s req resp).trace =
        req.Model.Buckets.flatMap (createEvents table) ∧
      ∃ m, (orderResource.Create table W s req resp).resp.State = some m ∧
        List.Forall₂ (recordedBy table) req.Model.Buckets m.Buckets := by
  have htr := create_trace_eq table W s req resp hget
  rw [htr] at hall ⊢
  rcases createLoop_shape table W req.Model.Buckets 0
      (loopStart s (Diagnostics.Append resp.Diagnostics req.GetDiags) req.Model.Buckets)
    with h | h | h
  · obtain ⟨hflag, htrace, _⟩ := h
    refine ⟨hflag, by rw [htrace]; simp [loopStart], ?_⟩
    obtain ⟨recorded, hrec, hfa⟩ := createLoop_buckets table W req.Model.Buckets []
      (loopStart s (Diagnostics.Append resp.Diagnostics req.GetDiags) req.Model.Buckets)
      (by simp [loopStart]) hflag
    rw [create_of_completed table W s req resp hget hflag]
    refine ⟨_, rfl, ?_⟩
    simp only [List.length_nil] at hrec
    rw [hrec]
    simpa using hfa
  · obtain ⟨_, m, item, err, _, htrace, _⟩ := h
    have := hall ⟨S3Call.CreateBucket (awsStringBucket table item), some err⟩
      (by rw [htrace]; simp)
    simp at this
  · obtain ⟨_, m, item, err, _, htrace, _⟩ := h
    have := hall ⟨S3Call.PutBucketTagging (awsStringBucket table item) (tags table item), some err⟩
      (by rw [htrace]; simp)
    simp at this

end

/-- C2. For every desired list on which the plan is read without error and
every remote call of `orderResource.Create` succeeds, the state is written
with a managed list of the same length as the desired list, and for every
index `i` the name of the `i`-th record is the normalized (quote-stripped)
form of the `i`-th desired name, which is the name in the `CreateBucket` and
in the `PutBucketTagging` call of that item. -/
theorem create_success_names (table : Char → Bool) {σ : Type} (W : World σ) (s : σ)
    (req : ResourceRequest) (resp : ResourceResponse)
    (hget : Diagnostics.HasError (Diagnostics.Append resp.Diagnostics req.GetDiags) = false)
    (hall : ∀ e ∈ (orderResource.Create table W s req resp).trace, e.err = none) :
    ∃ m, (orderResource.Create table W s req resp).resp.State = some m ∧
      m.Buckets.length = req.Model.Buckets.length ∧
      ∀ i item, req.Model.Buckets[i]? = some item →
        (∃ b, m.Buckets[i]? = some b ∧
          b.Name = types.StringValue (removeQuotes (item.Name.String table))) ∧
        (∃ e, (orderResource.Create table W s req resp).trace[2 * i]? = some e ∧
          e.call = S3Call.CreateBucket (removeQuotes (item.Name.String table))) ∧
        (∃ e tagSet, (orderResource.Create table W s req resp).trace[2 * i + 1]? = some e ∧
          e.call = S3Call.PutBucketTagging (removeQuotes (item.Name.String table)) tagSet) := by
  obtain ⟨_, htrace, m, hstate, hfa⟩ := create_success table W s req resp hget hall
  refine ⟨m, hstate, hfa.length_eq.symm, ?_⟩
  intro i item hi
  obtain ⟨b, hb, hrec⟩ := forall₂_getElem hfa i item hi
  obtain ⟨h1, h2⟩ := flatMap_createEvents_getElem table req.Model.Buckets i item hi
  rw [htrace]
  exact ⟨⟨b, hb, hrec.1⟩, ⟨_, h1, rfl⟩, ⟨_, _, h2, rfl⟩⟩

/-- The statement of C2 at three items, every call succeeding. -/
theorem create_success_names_witness :
    ∃ m, (orderResource.Create allPrintable scriptOk.world ⟨0, 0, 0⟩ (requestOf threeItems)
        freshResponse).resp.State = some m ∧
      m.Buckets.length = (requestOf threeItems).Model.Buckets.length ∧
      ∀ i item, (requestOf threeItems).Model.Buckets[i]? = some item →
        (∃ b, m.Buckets[i]? = some b ∧
          b.Name = types.StringValue (removeQuotes (item.Name.String allPrintable))) ∧
        (∃ e, (orderResource.Create allPrintable scriptOk.world ⟨0, 0, 0⟩ (requestOf threeItems)
            freshResponse).trace[2 * i]? = some e ∧
          e.call = S3Call.CreateBucket (removeQuotes (item.Name.String allPrintable))) ∧
        (∃ e tagSet, (orderResource.Create allPrintable scriptOk.world ⟨0, 0, 0⟩
            (requestOf threeItems) freshResponse).trace[2 * i + 1]? = some e ∧
          e.call = S3Call.PutBucketTagging (removeQuotes (item.Name.String allPrintable)) tagSet) :=
  create_success_names allPrintable scriptOk.world ⟨0, 0, 0⟩ (requestOf threeItems) freshResponse
    (by decide) (by decide)

/-- C9, as the code has it. For every desired item processed by a fully
successful `Create`, the `PutBucketTagging` call carries exactly one tag, of
key `tfkey`, whose value is the rendering of the tags with every double quote
removed, and the tags of the record are that same value; the value is the
tags string itself whenever that string is known and plain (printable
characters other than the double quote and the backslash). -/
theorem create_success_tags (table : Char → Bool) {σ : Type} (W : World σ) (s : σ)
    (req : ResourceRequest) (resp : ResourceResponse)
    (hget : Diagnostics.HasError (Diagnostics.Append resp.Diagnostics req.GetDiags) = false)
    (hall : ∀ e ∈ (orderResource.Create table W s req resp).trace, e.err = none) :
    ∃ m, (orderResource.Create table W s req resp).resp.State = some m ∧
      ∀ i item, req.Model.Buckets[i]? = some item →
        (orderResource.Create table W s req resp).trace[2 * i + 1]? =
          some ⟨S3Call.PutBucketTagging (removeQuotes (item.Name.String table))
            [⟨"tfkey", removeQuotes (item.Tags.String table)⟩], none⟩ ∧
        (∃ b, m.Buckets[i]? = some b ∧
          b.Tags = types.StringValue (removeQuotes (item.Tags.String table))) ∧
        (item.Tags.state = ValueState.Known → plain table item.Tags.value →
          removeQuotes (item.Tags.String table) = item.Tags.value) := by
  obtain ⟨_, htrace, m, hstate, hfa⟩ := create_success table W s req resp hget hall
  refine ⟨m, hstate, ?_⟩
  intro i item hi
  obtain ⟨b, hb, hrec⟩ := forall₂_getElem hfa i item hi
  obtain ⟨_, h2⟩ := flatMap_createEvents_getElem table req.Model.Buckets i item hi
  rw [htrace]
  exact ⟨h2, ⟨b, hb, hrec.2.1⟩, removeQuotes_string_known_plain table item.Tags⟩

/-- The amended C9 at the item `logs-bucket` with tags `team=infra`. -/
theorem create_success_tags_witness :
    ∃ m, (orderResource.Create allPrintable scriptOk.world ⟨0, 0, 0⟩
        (requestOf [desiredItem "logs-bucket" "team=infra"]) freshResponse).resp.State = some m ∧
      ∀ i item, (requestOf [desiredItem "logs-bucket" "team=infra"]).Model.Buckets[i]? = some item →
        (orderResource.Create allPrintable scriptOk.world ⟨0, 0, 0⟩
          (requestOf [desiredItem "logs-bucket" "team=infra"]) freshResponse).trace[2 * i + 1]? =
          some ⟨S3Call.PutBucketTagging (removeQuotes (item.Name.String allPrintable))
            [⟨"tfkey", removeQuotes (item.Tags.String allPrintable)⟩], none⟩ ∧
        (∃ b, m.Buckets[i]? = some b ∧
          b.Tags = types.StringValue (removeQuotes (item.Tags.String allPrintable))) ∧
        (item.Tags.state = ValueState.Known → plain allPrintable item.Tags.value →
          removeQuotes (item.Tags.String allPrintable) = item.Tags.value) :=
  create_success_tags allPrintable scriptOk.world ⟨0, 0, 0⟩
    (requestOf [desiredItem "logs-bucket" "team=infra"]) freshResponse (by decide) (by decide)

/-- C9 fails as stated: for the tags string `env="prod"` a fully successful
`Create` sends the tag value `env=\prod\` and records it, which is not the
tags string. -/
theorem create_tags_not_verbatim :
    (orderResource.Create allPrintable scriptOk.world ⟨0, 0, 0⟩
        (requestOf [desiredItem "logs-bucket" "env=\"prod\""]) freshResponse).trace =
        [⟨S3Call.CreateBucket "logs-bucket", none⟩,
         ⟨S3Call.PutBucketTagging "logs-bucket" [⟨"tfkey", "env=\\prod\\"⟩], none⟩] ∧
      (orderResource.Create allPrintable scriptOk.world ⟨0, 0, 0⟩
        (requestOf [desiredItem "logs-bucket" "env=\"prod\""]) freshResponse).resp.State =
        some ⟨types.StringValue "1",
          [⟨types.StringValue scriptOk.clock, types.StringValue "logs-bucket",
            types.StringValue "env=\\prod\\"⟩],
          types.StringValue scriptOk.clock⟩ ∧
      "env=\\prod\\" ≠ "env=\"prod\"" := by
  decide

/-! ## The loop of `Update` -/

section
variable (table : Char → Bool) {σ : Type} (W : World σ)

theorem updateLoop_cons_tagFailed {item : orderItemModel} {rest : List orderItemModel}
    {index : Nat} {v : LoopVars σ} {err : String}
    (ht : (W.PutBucketTagging v.world (awsStringBucket table item) (tags table item)).2 =
      some err) :
    updateLoop table W (item :: rest) index v =
      ({ world := (W.PutBucketTagging v.world (awsStringBucket table item) (tags table item)).1,
         trace := v.trace ++ [⟨updateCall table item, some err⟩],
         Diagnostics := v.Diagnostics,
         Buckets := v.Buckets }, true) := by
  simp only [updateLoop, ht, updateCall]

theorem updateLoop_cons_ok {item : orderItemModel} {rest : List orderItemModel}
    {index : Nat} {v : LoopVars σ}
    (ht : (W.PutBucketTagging v.world (awsStringBucket table item) (tags table item)).2 = none) :
    updateLoop table W (item :: rest) index v =
      updateLoop table W rest (index + 1) (updateNext table W item index v) := by
  simp only [updateLoop, ht, updateNext, updateEvent]

/-- The two ways the loop of `Update` ends: it visits every item, or it
returns at a failed `PutBucketTagging`; the items before the last one visited
have their successful event in the trace, and the diagnostics are untouched
either way. -/
theorem updateLoop_shape (items : List orderItemModel) (index : Nat) (v : LoopVars σ) :
    ((updateLoop table W items index v).2 = false ∧
      (updateLoop table W items index v).1.trace = v.trace ++ items.map (updateEvent table) ∧
      (updateLoop table W items index v).1.Diagnostics = v.Diagnostics) ∨
    ((updateLoop table W items index v).2 = true ∧ ∃ m item err, items[m]? = some item ∧
      (updateLoop table W items index v).1.trace =
        v.trace ++ (items.take m).map (updateEvent table) ++
          [⟨updateCall table item, some err⟩] ∧
      (updateLoop table W items index v).1.Diagnostics = v.Diagnostics) := by
  induction items generalizing index v with
  | nil => left; simp [updateLoop]
  | cons x xs ih =>
    cases ht : (W.PutBucketTagging v.world (awsStringBucket table x) (tags table x)).2 with
    | some e =>
      right
      rw [updateLoop_cons_tagFailed table W ht]
      exact ⟨rfl, 0, x, e, by simp, by simp, rfl⟩
    | none =>
      rw [updateLoop_cons_ok table W ht]
      rcases ih (index + 1) (updateNext table W x index v) with h | h
      · left
        refine ⟨h.1, ?_, ?_⟩
        · rw [h.2.1]; simp [updateNext]
        · rw [h.2.2]; simp [updateNext]
      · right
        obtain ⟨hf, m, item, err, hm, htr, hd⟩ := h
        refine ⟨hf, m + 1, item, err, by simpa using hm, ?_, ?_⟩
        · rw [htr]; simp [updateNext]
        · rw [hd]; simp [updateNext]

theorem update_of_returned (s : σ) (req : ResourceRequest) (resp : ResourceResponse)
    (hget : Diagnostics.HasError (Diagnostics.Append resp.Diagnostics req.GetDiags) = false)
    (h : (updateLoop table W req.Model.Buckets 0
      (loopStart s (Diagnostics.Append resp.Diagnostics req.GetDiags) req.Model.Buckets)).2 = true) :
    orderResource.Update table W s req resp =
      { world := (updateLoop table W req.Model.Buckets 0
          (loopStart s (Diagnostics.Append resp.Diagnostics req.GetDiags) req.Model.Buckets)).1.world,
        trace := (updateLoop table W req.Model.Buckets 0
          (loopStart s (Diagnostics.Append resp.Diagnostics req.GetDiags) req.Model.Buckets)).1.trace,
        resp := { resp with Diagnostics := (updateLoop table W req.Model.Buckets 0
          (loopStart s (Diagnostics.Append resp.Diagnostics req.GetDiags)
            req.Model.Buckets)).1.Diagnostics },
        exit := none } := by
  simp only [orderResource.Update, hget, Bool.false_eq_true, if_false, h, if_true]

theorem update_trace_eq (s : σ) (req : ResourceRequest) (resp : ResourceResponse)
    (hget : Diagnostics.HasError (Diagnostics.Append resp.Diagnostics req.GetDiags) = false) :
    (orderResource.Update table W s req resp).trace =
      (updateLoop table W req.Model.Buckets 0
        (loopStart s (Diagnostics.Append resp.Diagnostics req.GetDiags) req.Model.Buckets)).1.trace := by
  cases h : (updateLoop table W req.Model.Buckets 0
      (loopStart s (Diagnostics.Append resp.Diagnostics req.GetDiags) req.Model.Buckets)).2 with
  | true => rw [update_of_returned table W s req resp hget h]
  | false => simp only [orderResource.Update, hget, Bool.false_eq_true, if_false, h]

theorem update_trace_of_get_error (s : σ) (req : ResourceRequest) (resp : ResourceResponse)
    (hget : Diagnostics.HasError (Diagnostics.Append resp.Diagnostics req.GetDiags) = true) :
    (orderResource.Update table W s req resp).trace = [] := by
  simp only [orderResource.Update, hget, if_true]

theorem create_trace_of_get_error (s : σ) (req : ResourceRequest) (resp : ResourceResponse)
    (hget : Diagnostics.HasError (Diagnostics.Append resp.Diagnostics req.GetDiags) = true) :
    (orderResource.Create table W s req resp).trace = [] := by
  simp only [orderResource.Create, hget, if_true]

end

/-! ## The order of the remote calls -/

theorem taggedAfterCreate_nil : taggedAfterCreate [] := by
  intro pre name post h
  simp at h

theorem taggedAfterCreate_single (call : S3Call) (err : String) :
    taggedAfterCreate [⟨call, some err⟩] := by
  intro pre name post h
  cases pre with
  | nil => simp at h
  | cons p pre => simp at h

theorem taggedAfterCreate_pair (name : String) (tagSet : List Tag) (err : Option String)
    (rest : List Event) (h : taggedAfterCreate rest) :
    taggedAfterCreate
      (⟨S3Call.CreateBucket name, none⟩ :: ⟨S3Call.PutBucketTagging name tagSet, err⟩ :: rest) := by
  intro pre name2 post hsplit
  cases pre with
  | nil =>
    simp at hsplit
    obtain ⟨hn, hp⟩ := hsplit
    subst hn
    exact ⟨tagSet, err, rest, hp.symm⟩
  | cons p pre =>
    cases pre with
    | nil => simp at hsplit
    | cons q pre =>
      simp at hsplit
      exact h pre name2 post hsplit.2.2

theorem taggedAfterCreate_items (table : Char → Bool) (l : List orderItemModel)
    (tail : List Event) (h : taggedAfterCreate tail) :
    taggedAfterCreate (l.flatMap (createEvents table) ++ tail) := by
  induction l with
  | nil => simpa using h
  | cons a l ih =>
    simp only [List.flatMap_cons, createEvents, List.cons_append, List.nil_append]
    exact taggedAfterCreate_pair _ _ _ _ ih

theorem map_call_createEvents (table : Char → Bool) (l : List orderItemModel) :
    (l.flatMap (createEvents table)).map Event.call = l.flatMap (createCalls table) := by
  induction l with
  | nil => rfl
  | cons a l ih => simp [List.flatMap_cons, createEvents, createCalls, ih]

theorem map_call_updateEvent (table : Char → Bool) (l : List orderItemModel) :
    (l.map (updateEvent table)).map Event.call = l.map (updateCall table) := by
  simp [updateEvent, updateCall]

theorem flatMap_createCalls_split (table : Char → Bool) (l : List orderItemModel) (m : Nat)
    (item : orderItemModel) (h : l[m]? = some item) :
    l.flatMap (createCalls table) =
      (l.take m).flatMap (createCalls table) ++
        (createCalls table item ++ (l.drop (m + 1)).flatMap (createCalls table)) := by
  conv_lhs => rw [(split_at_index l m item h).1]
  rw [List.flatMap_append, List.flatMap_cons]

/-- The calls of a pass of `Create` are an initial segment of the two calls
per item in list order, and every successful create is followed at once by
the tag call for the same name. -/
theorem createLoop_order (table : Char → Bool) {σ : Type} (W : World σ)
    (items : List orderItemModel) (index : Nat) (v : LoopVars σ) (hv : v.trace = []) :
    (createLoop table W items index v).1.trace.map Event.call <+:
        items.flatMap (createCalls table) ∧
      taggedAfterCreate (createLoop table W items index v).1.trace := by
  rcases createLoop_shape table W items index v with h | h | h
  · obtain ⟨_, htrace, _⟩ := h
    rw [htrace, hv, List.nil_append, map_call_createEvents]
    refine ⟨List.prefix_refl _, ?_⟩
    simpa using taggedAfterCreate_items table items [] taggedAfterCreate_nil
  · obtain ⟨_, m, item, err, hm, htrace, _⟩ := h
    rw [htrace, hv, List.nil_append]
    constructor
    · rw [List.map_append, map_call_createEvents, flatMap_createCalls_split table items m item hm]
      exact (List.prefix_append_right_inj _).mpr ⟨_, by simp [createCalls]; rfl⟩
    · exact taggedAfterCreate_items table _ _ (taggedAfterCreate_single _ _)
  · obtain ⟨_, m, item, err, hm, htrace, _⟩ := h
    rw [htrace, hv, List.nil_append]
    constructor
    · rw [List.map_append, map_call_createEvents, flatMap_createCalls_split table items m item hm]
      exact (List.prefix_append_right_inj _).mpr ⟨_, by simp [createCalls]; rfl⟩
    · exact taggedAfterCreate_items table _ _
        (taggedAfterCreate_pair _ _ _ _ taggedAfterCreate_nil)

/-- The calls of a pass of `Update` are the tag calls of an initial segment
of the items, in list order, and only the last of them can have failed. -/
theorem updateLoop_order (table : Char → Bool) {σ : Type} (W : World σ)
    (items : List orderItemModel) (index : Nat) (v : LoopVars σ) (hv : v.trace = []) :
    (updateLoop table W items index v).1.trace.map Event.call =
        (items.take (updateLoop table W items index v).1.trace.length).map (updateCall table) ∧
      (∀ pre e post, (updateLoop table W items index v).1.trace = pre ++ e :: post →
        post ≠ [] → e.err = none) := by
  rcases updateLoop_shape table W items index v with h | h
  · obtain ⟨_, htrace, _⟩ := h
    rw [htrace, hv, List.nil_append]
    refine ⟨by rw [map_call_updateEvent, List.length_map, List.take_length], ?_⟩
    intro pre e post hsplit _
    have hmem : e ∈ items.map (updateEvent table) := by rw [hsplit]; simp
    obtain ⟨item, _, rfl⟩ := List.mem_map.mp hmem
    rfl
  · obtain ⟨_, m, item, err, hm, htrace, _⟩ := h
    obtain ⟨hsplit, hlen⟩ := split_at_index items m item hm
    rw [htrace, hv, List.nil_append]
    constructor
    · have hl : ((items.take m).map (updateEvent table) ++
          [(⟨updateCall table item, some err⟩ : Event)]).length = m + 1 := by
        rw [List.length_append, List.length_map, hlen]; rfl
      rw [hl, List.map_append, map_call_updateEvent, List.take_succ, hm]
      simp
    · intro pre e post hsp hne
      have hpost : post ≠ [] := hne
      obtain ⟨q, post2, rfl⟩ := List.exists_cons_of_ne_nil hpost
      have hmem : e ∈ (items.take m).map (updateEvent table) := by
        have h2 := congrArg List.dropLast hsp
        rw [List.dropLast_concat] at h2
        rw [h2, List.dropLast_append_cons, List.dropLast_cons₂]
        simp
      obtain ⟨item2, _, rfl⟩ := List.mem_map.mp hmem
      rfl

/-- C10. Over the remote calls of a pass, whatever the remote store answers:
the calls of `orderResource.Update` are the tag calls of an initial segment
of the items in list order, none of them is a create call, and any call that
is followed by another one succeeded (so the pass stops at the first
failure), while a pass whose plan is read without error and whose calls all
succeed has one call per item; the calls of `orderResource.Create` are an initial segment of the
create and tag calls of the items in list order, and every successful
create call is followed at once by a tag call for the same bucket name. -/
theorem remote_call_order (table : Char → Bool) {σ : Type} (W : World σ) (s : σ)
    (req : ResourceRequest) (resp : ResourceResponse) :
    ((orderResource.Update table W s req resp).trace.map Event.call =
        (req.Model.Buckets.take (orderResource.Update table W s req resp).trace.length).map
          (fun item => S3Call.PutBucketTagging (removeQuotes (item.Name.String table))
            [⟨"tfkey", removeQuotes (item.Tags.String table)⟩]) ∧
      (∀ e ∈ (orderResource.Update table W s req resp).trace,
        ∀ name, e.call ≠ S3Call.CreateBucket name) ∧
      (∀ pre e post, (orderResource.Update table W s req resp).trace = pre ++ e :: post →
        post ≠ [] → e.err = none) ∧
      (Diagnostics.HasError (Diagnostics.Append resp.Diagnostics req.GetDiags) = false →
        (∀ e ∈ (orderResource.Update table W s req resp).trace, e.err = none) →
        (orderResource.Update table W s req resp).trace.length = req.Model.Buckets.length)) ∧
    ((orderResource.Create table W s req resp).trace.map Event.call <+:
        req.Model.Buckets.flatMap
          (fun item => [S3Call.CreateBucket (removeQuotes (item.Name.String table)),
            S3Call.PutBucketTagging (removeQuotes (item.Name.String table))
              [⟨"tfkey", removeQuotes (item.Tags.String table)⟩]]) ∧
      (∀ pre name post, (orderResource.Create table W s req resp).trace =
          pre ++ ⟨S3Call.CreateBucket name, none⟩ :: post →
        ∃ tagSet err post2, post = ⟨S3Call.PutBucketTagging name tagSet, err⟩ :: post2)) := by
  cases hget : Diagnostics.HasError (Diagnostics.Append resp.Diagnostics req.GetDiags) with
  | true =>
    rw [update_trace_of_get_error table W s req resp hget,
      create_trace_of_get_error table W s req resp hget]
    refine ⟨⟨by simp, by simp, ?_, by simp⟩, by simp, ?_⟩
    · intro pre e post h; simp at h
    · intro pre name post h; simp at h
  | false =>
    rw [update_trace_eq table W s req resp hget, create_trace_eq table W s req resp hget]
    obtain ⟨u1, u2⟩ := updateLoop_order table W req.Model.Buckets 0
      (loopStart s (Diagnostics.Append resp.Diagnostics req.GetDiags) req.Model.Buckets) rfl
    obtain ⟨c1, c2⟩ := createLoop_order table W req.Model.Buckets 0
      (loopStart s (Diagnostics.Append resp.Diagnostics req.GetDiags) req.Model.Buckets) rfl
    refine ⟨⟨u1, ?_, u2, ?_⟩, c1, c2⟩
    swap
    · intro _ hall
      rcases updateLoop_shape table W req.Model.Buckets 0
          (loopStart s (Diagnostics.Append resp.Diagnostics req.GetDiags) req.Model.Buckets)
        with h | h
      · rw [h.2.1]; simp [loopStart]
      · obtain ⟨_, m, item, err, _, htrace, _⟩ := h
        have := hall ⟨updateCall table item, some err⟩ (by rw [htrace]; simp)
        simp at this
    intro e he name hcall
    have hmem : e.call ∈ (updateLoop table W req.Model.Buckets 0
        (loopStart s (Diagnostics.Append resp.Diagnostics req.GetDiags)
          req.Model.Buckets)).1.trace.map Event.call := List.mem_map_of_mem _ he
    rw [u1, hcall] at hmem
    obtain ⟨item, _, hitem⟩ := List.mem_map.mp hmem
    simp [updateCall] at hitem

/-! ## Tag failures against a scripted world -/

theorem updateLoop_append (table : Char → Bool) {σ : Type} (W : World σ)
    (xs ys : List orderItemModel) (index : Nat) (v : LoopVars σ) :
    updateLoop table W (xs ++ ys) index v =
      if (updateLoop table W xs index v).2 then updateLoop table W xs index v
      else updateLoop table W ys (index + xs.length) (updateLoop table W xs index v).1 := by
  induction xs generalizing index v with
  | nil => simp [updateLoop]
  | cons x xs ih =>
    rw [List.cons_append]
    cases ht : (W.PutBucketTagging v.world (awsStringBucket table x) (tags table x)).2 with
    | some e =>
      rw [updateLoop_cons_tagFailed table W ht, updateLoop_cons_tagFailed table W ht]; simp
    | none =>
      rw [updateLoop_cons_ok table W ht, updateLoop_cons_ok table W ht, ih]
      simp only [List.length_cons]
      have : index + 1 + xs.length = index + (xs.length + 1) := by omega
      rw [this]

theorem scripted_updateLoop_ok (table : Char → Bool) (sc : Script) (xs : List orderItemModel)
    (index : Nat) (v : LoopVars Calls) (n : Nat) (ht : v.world.tags = n)
    (hok : ∀ i, i < xs.length → sc.tagErr (n + i) = none) :
    (updateLoop table sc.world xs index v).2 = false ∧
      (updateLoop table sc.world xs index v).1.world.tags = n + xs.length ∧
      (updateLoop table sc.world xs index v).1.trace = v.trace ++ xs.map (updateEvent table) ∧
      (updateLoop table sc.world xs index v).1.Diagnostics = v.Diagnostics := by
  induction xs generalizing index v n with
  | nil => simp [updateLoop, ht]
  | cons x xs ih =>
    have h0 := hok 0 (by simp)
    have ht1 : (sc.world.PutBucketTagging v.world (awsStringBucket table x) (tags table x)).2 =
        none := by
      simpa [Script.world, ht] using h0
    rw [updateLoop_cons_ok table sc.world ht1]
    have hrec := ih (index + 1) (updateNext table sc.world x index v) (n + 1)
      (by simp [updateNext, Script.world, ht])
      (fun i hi => by
        have := hok (i + 1) (by simpa using hi)
        rwa [show n + 1 + i = n + (i + 1) by omega])
    obtain ⟨h1, h2, h3, h4⟩ := hrec
    refine ⟨h1, ?_, ?_, ?_⟩
    · rw [h2]; simp; omega
    · rw [h3]; simp [updateNext]
    · rw [h4]; simp [updateNext]

/-- C4, as the code has it. In `orderResource.Update`, when the plan is read
without error, the tag calls of items `0..k-1` succeed and the tag call of
item `k` fails, the pass aborts at item `k`: the trace is the tag calls of the
items before `k` followed by the failed one and nothing else (`k + 1` calls),
the state of the response is left as it was, and the failure is not added to
the response diagnostics, which hold no error afterwards. -/
theorem update_stops_at_failed_tag (table : Char → Bool) (sc : Script)
    (req : ResourceRequest) (resp : ResourceResponse) (k : Nat) (item : orderItemModel)
    (err : String)
    (hget : Diagnostics.HasError (Diagnostics.Append resp.Diagnostics req.GetDiags) = false)
    (hk : req.Model.Buckets[k]? = some item)
    (hok : ∀ i, i < k → sc.tagErr i = none)
    (hfail : sc.tagErr k = some err) :
    (orderResource.Update table sc.world ⟨0, 0, 0⟩ req resp).trace =
        (req.Model.Buckets.take k).map (updateEvent table) ++
          [⟨S3Call.PutBucketTagging (removeQuotes (item.Name.String table))
            [⟨"tfkey", removeQuotes (item.Tags.String table)⟩], some err⟩] ∧
      (orderResource.Update table sc.world ⟨0, 0, 0⟩ req resp).trace.length = k + 1 ∧
      (orderResource.Update table sc.world ⟨0, 0, 0⟩ req resp).resp.Diagnostics =
        Diagnostics.Append resp.Diagnostics req.GetDiags ∧
      Diagnostics.HasError
        (orderResource.Update table sc.world ⟨0, 0, 0⟩ req resp).resp.Diagnostics = false ∧
      (orderResource.Update table sc.world ⟨0, 0, 0⟩ req resp).resp.State = resp.State ∧
      (orderResource.Update table sc.world ⟨0, 0, 0⟩ req resp).exit = none := by
  obtain ⟨hsplit, hlen⟩ := split_at_index _ _ _ hk
  generalize hv : loopStart (⟨0, 0, 0⟩ : Calls) (Diagnostics.Append resp.Diagnostics req.GetDiags)
    req.Model.Buckets = v0
  have hv2 : v0.world.tags = 0 := by rw [← hv]; rfl
  have hv3 : v0.trace = [] := by rw [← hv]; rfl
  have hv4 : v0.Diagnostics = Diagnostics.Append resp.Diagnostics req.GetDiags := by rw [← hv]; rfl
  obtain ⟨p1, p2, p3, p4⟩ := scripted_updateLoop_ok table sc (req.Model.Buckets.take k) 0
    v0 0 hv2 (fun i hi => by simpa using hok i (by rw [hlen] at hi; exact hi))
  have htf : (sc.world.PutBucketTagging
      (updateLoop table sc.world (req.Model.Buckets.take k) 0 v0).1.world
        (awsStringBucket table item) (tags table item)).2 = some err := by
    show sc.tagErr (updateLoop table sc.world (req.Model.Buckets.take k) 0 v0).1.world.tags
      = some err
    rw [p2, hlen, Nat.zero_add]; exact hfail
  have hloop := updateLoop_append table sc.world (req.Model.Buckets.take k)
    (item :: req.Model.Buckets.drop (k + 1)) 0 v0
  rw [← hsplit, p1, updateLoop_cons_tagFailed table sc.world htf] at hloop
  simp only [Bool.false_eq_true, if_false] at hloop
  have hflag : (updateLoop table sc.world req.Model.Buckets 0 v0).2 = true := by rw [hloop]
  rw [← hv] at hflag hloop
  rw [update_of_returned table sc.world _ req resp hget hflag, hloop, hv, p3, p4, hv3, hv4]
  refine ⟨by simp [updateCall, awsStringBucket, tags, tagValue], ?_, rfl, hget, rfl, rfl⟩
  rw [List.nil_append, List.length_append, List.length_map, hlen]; rfl

/-- The amended C4 at three items, the tag call of the second one failing. -/
theorem update_stops_at_failed_tag_witness :
    (orderResource.Update allPrintable (failTagAt 1 "NoSuchBucket").world ⟨0, 0, 0⟩
        (requestOf threeItems) freshResponse).trace =
        [⟨S3Call.PutBucketTagging "alpha" [⟨"tfkey", "team=a"⟩], none⟩,
         ⟨S3Call.PutBucketTagging "beta" [⟨"tfkey", "team=b"⟩], some "NoSuchBucket"⟩] ∧
      (orderResource.Update allPrintable (failTagAt 1 "NoSuchBucket").world ⟨0, 0, 0⟩
        (requestOf threeItems) freshResponse).trace.length = 2 ∧
      (orderResource.Update allPrintable (failTagAt 1 "NoSuchBucket").world ⟨0, 0, 0⟩
        (requestOf threeItems) freshResponse).resp.Diagnostics = [] ∧
      Diagnostics.HasError
        (orderResource.Update allPrintable (failTagAt 1 "NoSuchBucket").world ⟨0, 0, 0⟩
          (requestOf threeItems) freshResponse).resp.Diagnostics = false ∧
      (orderResource.Update allPrintable (failTagAt 1 "NoSuchBucket").world ⟨0, 0, 0⟩
        (requestOf threeItems) freshResponse).resp.State = none ∧
      (orderResource.Update allPrintable (failTagAt 1 "NoSuchBucket").world ⟨0, 0, 0⟩
        (requestOf threeItems) freshResponse).exit = none :=
  update_stops_at_failed_tag allPrintable (failTagAt 1 "NoSuchBucket")
    (requestOf threeItems) freshResponse 1 (desiredItem "beta" "team=b") "NoSuchBucket"
    (by decide) (by decide) (by decide) (by decide)

/-- C4 fails as stated: when the tag call of the first of two items fails on
a missing bucket, `Update` returns with no diagnostic at all, so the response
diagnostics hold no error afterwards. -/
theorem update_failed_tag_no_diagnostic :
    (failTagAt 0 "NoSuchBucket").tagErr 0 = some "NoSuchBucket" ∧
      (orderResource.Update allPrintable (failTagAt 0 "NoSuchBucket").world ⟨0, 0, 0⟩
        (requestOf [desiredItem "alpha" "team=a", desiredItem "beta" "team=b"])
        freshResponse).trace =
        [⟨S3Call.PutBucketTagging "alpha" [⟨"tfkey", "team=a"⟩], some "NoSuchBucket"⟩] ∧
      (orderResource.Update allPrintable (failTagAt 0 "NoSuchBucket").world ⟨0, 0, 0⟩
        (requestOf [desiredItem "alpha" "team=a", desiredItem "beta" "team=b"])
        freshResponse).resp.Diagnostics = [] ∧
      Diagnostics.HasError
        (orderResource.Update allPrintable (failTagAt 0 "NoSuchBucket").world ⟨0, 0, 0⟩
          (requestOf [desiredItem "alpha" "team=a", desiredItem "beta" "team=b"])
          freshResponse).resp.Diagnostics = false := by
  decide

/-- C3, as the code has it. In `orderResource.Create`, a failure of the tag
call is fatal to the pass: when the plan is read without error, both calls of
items `0..k-1` and the create call of item `k` succeed and the tag call of
item `k` fails, the pass stops at item `k`: the trace is the two calls of each
item before `k` followed by the create and the failed tag call of item `k` and
nothing else (`2 * k + 2` calls), no diagnostic is appended, the state of the
response is left as it was, and the process is not terminated. -/
theorem create_stops_at_failed_tag (table : Char → Bool) (sc : Script)
    (req : ResourceRequest) (resp : ResourceResponse) (k : Nat) (item : orderItemModel)
    (err : String)
    (hget : Diagnostics.HasError (Diagnostics.Append resp.Diagnostics req.GetDiags) = false)
    (hk : req.Model.Buckets[k]? = some item)
    (hok : ∀ i, i < k → sc.createErr i = none ∧ sc.tagErr i = none)
    (hcreate : sc.createErr k = none)
    (hfail : sc.tagErr k = some err) :
    (orderResource.Create table sc.world ⟨0, 0, 0⟩ req resp).trace =
        (req.Model.Buckets.take k).flatMap (createEvents table) ++
          [⟨S3Call.CreateBucket (removeQuotes (item.Name.String table)), none⟩,
           ⟨S3Call.PutBucketTagging (removeQuotes (item.Name.String table))
             [⟨"tfkey", removeQuotes (item.Tags.String table)⟩], some err⟩] ∧
      (orderResource.Create table sc.world ⟨0, 0, 0⟩ req resp).trace.length = 2 * k + 2 ∧
      (orderResource.Create table sc.world ⟨0, 0, 0⟩ req resp).resp.Diagnostics =
        Diagnostics.Append resp.Diagnostics req.GetDiags ∧
      (orderResource.Create table sc.world ⟨0, 0, 0⟩ req resp).resp.State = resp.State ∧
      (orderResource.Create table sc.world ⟨0, 0, 0⟩ req resp).exit = none := by
  obtain ⟨hsplit, hlen⟩ := split_at_index _ _ _ hk
  generalize hv : loopStart (⟨0, 0, 0⟩ : Calls) (Diagnostics.Append resp.Diagnostics req.GetDiags)
    req.Model.Buckets = v0
  have hv1 : v0.world.creates = 0 := by rw [← hv]; rfl
  have hv2 : v0.world.tags = 0 := by rw [← hv]; rfl
  have hv3 : v0.trace = [] := by rw [← hv]; rfl
  have hv4 : v0.Diagnostics = Diagnostics.Append resp.Diagnostics req.GetDiags := by rw [← hv]; rfl
  obtain ⟨p1, p2, p3, p4, p5⟩ := scripted_createLoop_ok table sc (req.Model.Buckets.take k) 0
    v0 0 hv1 hv2 (fun i hi => by simpa using hok i (by rw [hlen] at hi; exact hi))
  have hcf : (sc.world.CreateBucket
      (createLoop table sc.world (req.Model.Buckets.take k) 0 v0).1.world
        (awsStringBucket table item)).2 = none := by
    show sc.createErr (createLoop table sc.world (req.Model.Buckets.take k) 0 v0).1.world.creates
      = none
    rw [p2, hlen, Nat.zero_add]; exact hcreate
  have htf : (sc.world.PutBucketTagging (sc.world.CreateBucket
      (createLoop table sc.world (req.Model.Buckets.take k) 0 v0).1.world
        (awsStringBucket table item)).1 (awsStringBucket table item) (tags table item)).2 =
      some err := by
    show sc.tagErr (createLoop table sc.world (req.Model.Buckets.take k) 0 v0).1.world.tags
      = some err
    rw [p3, hlen, Nat.zero_add]; exact hfail
  have hloop := createLoop_append table sc.world (req.Model.Buckets.take k)
    (item :: req.Model.Buckets.drop (k + 1)) 0 v0
  rw [← hsplit, p1, createLoop_cons_tagFailed table sc.world hcf htf] at hloop
  simp only [Bool.false_eq_true, if_false] at hloop
  have hflag : (createLoop table sc.world req.Model.Buckets 0 v0).2 = true := by rw [hloop]
  rw [← hv] at hflag hloop
  rw [create_of_returned table sc.world _ req resp hget hflag, hloop, hv, p4, p5, hv3, hv4]
  refine ⟨by simp [awsStringBucket, tags, tagValue], ?_, rfl, rfl, rfl⟩
  rw [List.nil_append, List.length_append, length_flatMap_createEvents, hlen]; rfl

/-- The amended C3 at three items, the tag call of the second one failing. -/
theorem create_stops_at_failed_tag_witness :
    (orderResource.Create allPrintable (failTagAt 1 "AccessDenied").world ⟨0, 0, 0⟩
        (requestOf threeItems) freshResponse).trace =
        [⟨S3Call.CreateBucket "alpha", none⟩,
         ⟨S3Call.PutBucketTagging "alpha" [⟨"tfkey", "team=a"⟩], none⟩,
         ⟨S3Call.CreateBucket "beta", none⟩,
         ⟨S3Call.PutBucketTagging "beta" [⟨"tfkey", "team=b"⟩], some "AccessDenied"⟩] ∧
      (orderResource.Create allPrintable (failTagAt 1 "AccessDenied").world ⟨0, 0, 0⟩
        (requestOf threeItems) freshResponse).trace.length = 4 ∧
      (orderResource.Create allPrintable (failTagAt 1 "AccessDenied").world ⟨0, 0, 0⟩
        (requestOf threeItems) freshResponse).resp.Diagnostics = [] ∧
      (orderResource.Create allPrintable (failTagAt 1 "AccessDenied").world ⟨0, 0, 0⟩
        (requestOf threeItems) freshResponse).resp.State = none ∧
      (orderResource.Create allPrintable (failTagAt 1 "AccessDenied").world ⟨0, 0, 0⟩
        (requestOf threeItems) freshResponse).exit = none :=
  create_stops_at_failed_tag allPrintable (failTagAt 1 "AccessDenied")
    (requestOf threeItems) freshResponse 1 (desiredItem "beta" "team=b") "AccessDenied"
    (by decide) (by decide) (by decide) (by decide) (by decide)

/-- C3 fails as stated: with three items, every create call succeeding and
the tag call of the first item failing, `Create` stops after that tag call;
the items after it get no create call. -/
theorem create_failed_tag_aborts :
    (∀ i, i < 3 → (failTagAt 0 "AccessDenied").createErr i = none) ∧
      (failTagAt 0 "AccessDenied").tagErr 0 = some "AccessDenied" ∧
      (orderResource.Create allPrintable (failTagAt 0 "AccessDenied").world ⟨0, 0, 0⟩
        (requestOf threeItems) freshResponse).trace =
        [⟨S3Call.CreateBucket "alpha", none⟩,
         ⟨S3Call.PutBucketTagging "alpha" [⟨"tfkey", "team=a"⟩], some "AccessDenied"⟩] ∧
      S3Call.CreateBucket "beta" ∉
        (orderResource.Create allPrintable (failTagAt 0 "AccessDenied").world ⟨0, 0, 0⟩
          (requestOf threeItems) freshResponse).trace.map Event.call ∧
      S3Call.CreateBucket "gamma" ∉
        (orderResource.Create allPrintable (failTagAt 0 "AccessDenied").world ⟨0, 0, 0⟩
          (requestOf threeItems) freshResponse).trace.map Event.call := by
  decide

/-! ## Normalized names without a backslash -/

theorem isPrint_ascii (table : Char → Bool) (c : Char) (h1 : 0x20 ≤ c.toNat)
    (h2 : c.toNat ≤ 0x7E) : IsPrint table c = true := by
  unfold IsPrint
  rw [if_pos (by omega), if_pos ⟨h1, h2⟩]

theorem ite_head {α : Type} {p : Prop} [Decidable p] {a : α} {x y : List α}
    (hx : ∃ r, x = a :: r) (hy : ∃ r, y = a :: r) : ∃ r, (if p then x else y) = a :: r := by
  by_cases hp : p
  · rw [if_pos hp]; exact hx
  · rw [if_neg hp]; exact hy

theorem appendEscapedRune_escaped (table : Char → Bool) (c : Char)
    (h : ¬ (c ≠ '"' ∧ c ≠ '\\' ∧ IsPrint table c = true)) :
    ∃ rest, appendEscapedRune table c = '\\' :: rest := by
  unfold appendEscapedRune
  by_cases h1 : c = '"' ∨ c = '\\'
  · rw [if_pos h1]; exact ⟨_, rfl⟩
  · rw [if_neg h1]
    by_cases h2 : IsPrint table c = true
    · exact absurd ⟨fun e => h1 (Or.inl e), fun e => h1 (Or.inr e), h2⟩ h
    · rw [if_neg h2]
      refine ite_head ⟨_, rfl⟩ (ite_head ⟨_, rfl⟩ (ite_head ⟨_, rfl⟩ (ite_head ⟨_, rfl⟩
        (ite_head ⟨_, rfl⟩ (ite_head ⟨_, rfl⟩ (ite_head ⟨_, rfl⟩ (ite_head ⟨_, rfl⟩
        (ite_head ⟨_, rfl⟩ ⟨_, rfl⟩))))))))

theorem appendEscapedRune_no_backslash (table : Char → Bool) (c : Char)
    (h : '\\' ∉ (appendEscapedRune table c).filter (fun d => d != '"')) :
    c ≠ '"' ∧ c ≠ '\\' ∧ IsPrint table c = true := by
  by_contra hcon
  obtain ⟨rest, hrest⟩ := appendEscapedRune_escaped table c hcon
  rw [hrest] at h
  exact h (by simp [List.filter_cons])

theorem flatMap_no_backslash (table : Char → Bool) (l : List Char)
    (h : '\\' ∉ (l.flatMap (appendEscapedRune table)).filter (fun d => d != '"')) :
    ∀ c ∈ l, c ≠ '"' ∧ c ≠ '\\' ∧ IsPrint table c = true := by
  induction l with
  | nil => simp
  | cons a l ih =>
    rw [List.flatMap_cons, List.filter_append, List.mem_append, not_or] at h
    intro c hc
    rcases List.mem_cons.mp hc with rfl | hc
    · exact appendEscapedRune_no_backslash table _ h.1
    · exact ih h.2 c hc

theorem plain_unknown (table : Char → Bool) : plain table (removeQuotes "<unknown>") := by
  have h : removeQuotes "<unknown>" = "<unknown>" := by decide
  rw [h]
  intro c hc
  have hc2 : c ∈ ['<', 'u', 'n', 'k', 'n', 'o', 'w', 'n', '>'] := hc
  simp only [List.mem_cons, List.mem_singleton, List.not_mem_nil, or_false] at hc2
  rcases hc2 with rfl | rfl | rfl | rfl | rfl | rfl | rfl | rfl | rfl <;>
    exact ⟨by decide, by decide, isPrint_ascii table _ (by decide) (by decide)⟩

theorem plain_null (table : Char → Bool) : plain table (removeQuotes "<null>") := by
  have h : removeQuotes "<null>" = "<null>" := by decide
  rw [h]
  intro c hc
  have hc2 : c ∈ ['<', 'n', 'u', 'l', 'l', '>'] := hc
  simp only [List.mem_cons, List.mem_singleton, List.not_mem_nil, or_false] at hc2
  rcases hc2 with rfl | rfl | rfl | rfl | rfl | rfl <;>
    exact ⟨by decide, by decide, isPrint_ascii table _ (by decide) (by decide)⟩

/-- A normalized string without a backslash is plain. -/
theorem plain_of_no_backslash (table : Char → Bool) (v : StringValue)
    (h : '\\' ∉ (removeQuotes (v.String table)).data) :
    plain table (removeQuotes (v.String table)) := by
  unfold StringValue.String at h ⊢
  split_ifs at h ⊢
  · exact plain_unknown table
  · exact plain_null table
  · rw [removeQuotes_quote] at h ⊢
    have hall := flatMap_no_backslash table v.value.data h
    rw [filter_flatMap_plain table _ hall]
    exact hall

/-- Normalizing again a normalized string without a backslash (as the known
value that `Create` records) gives it back. -/
theorem renormalize_of_no_backslash (table : Char → Bool) (v : StringValue)
    (h : '\\' ∉ (removeQuotes (v.String table)).data) :
    removeQuotes ((types.StringValue (removeQuotes (v.String table))).String table) =
      removeQuotes (v.String table) :=
  removeQuotes_string_known_plain table _ rfl (plain_of_no_backslash table v h)

/-! ## `Create` followed by `Read` against the store of names -/

section
variable (table : Char → Bool) (clock : String) (epoch : Time)

/-- After a loop of `Create` that visited every item, every name it passed
to `CreateBucket` is in the store, and nothing that was there has left. -/
theorem store_createLoop_mem (items : List orderItemModel) (index : Nat)
    (v : LoopVars (List String))
    (hflag : (createLoop table (storeWorld clock epoch) items index v).2 = false) :
    (∀ name ∈ v.world, name ∈ (createLoop table (storeWorld clock epoch) items index v).1.world) ∧
      ∀ item ∈ items, awsStringBucket table item ∈
        (createLoop table (storeWorld clock epoch) items index v).1.world := by
  induction items generalizing index v with
  | nil => simp [createLoop]
  | cons x xs ih =>
    cases hc : ((storeWorld clock epoch).CreateBucket v.world (awsStringBucket table x)).2 with
    | some e =>
      rw [createLoop_cons_createFailed table _ hc] at hflag; simp at hflag
    | none =>
      cases ht : ((storeWorld clock epoch).PutBucketTagging
          ((storeWorld clock epoch).CreateBucket v.world (awsStringBucket table x)).1
          (awsStringBucket table x) (tags table x)).2 with
      | some e =>
        rw [createLoop_cons_tagFailed table _ hc ht] at hflag; simp at hflag
      | none =>
        rw [createLoop_cons_ok table _ hc ht] at hflag ⊢
        obtain ⟨h1, h2⟩ := ih (index + 1) _ hflag
        have hnot : awsStringBucket table x ∉ v.world := by
          intro hmem
          simp [storeWorld, hmem] at hc
        have hw : (createNext table (storeWorld clock epoch) x index v).world =
            awsStringBucket table x :: v.world := by
          simp [createNext, storeWorld, hnot]
        refine ⟨fun name hn => h1 name (by rw [hw]; exact List.mem_cons_of_mem _ hn), ?_⟩
        intro item hitem
        rcases List.mem_cons.mp hitem with rfl | hitem
        · exact h1 _ (by rw [hw]; exact List.mem_cons_self _ _)
        · exact h2 item hitem

/-- A loop of `Read` over records whose names are all in the store visits
every record, with every check succeeding, and leaves the store as it was. -/
theorem store_readLoop_ok (records : List orderItemModel) (names : List String)
    (trace : List Event) (h : ∀ b ∈ records, awsStringBucket table b ∈ names) :
    readLoop table (storeWorld clock epoch) records (names, trace) =
      ((names, trace ++ records.map (headEvent table)), false) := by
  induction records generalizing trace with
  | nil => simp [readLoop]
  | cons b bs ih =>
    have hb := h b (by simp)
    have hhead : (storeWorld clock epoch).HeadBucket names (awsStringBucket table b) =
        (names, none) := by
      simp [storeWorld, hb]
    simp only [readLoop, hhead]
    rw [ih _ (fun c hc => h c (by simp [hc]))]
    simp [headEvent]

theorem forall₂_map_eq {α β γ : Type} {R : α → β → Prop} {f : α → γ} {g : β → γ}
    {l₁ : List α} {l₂ : List β} (h : List.Forall₂ R l₁ l₂) (hfg : ∀ a b, a ∈ l₁ → R a b → f a = g b) :
    l₁.map f = l₂.map g := by
  induction h with
  | nil => rfl
  | cons hab _ ih =>
    simp only [List.map_cons]
    rw [hfg _ _ (by simp) hab, ih (fun a b ha => hfg a b (by simp [ha]))]

end

/-- C5, as the code has it. For every non-empty desired list whose
normalized names are pairwise distinct and contain no backslash, if
`orderResource.Create` succeeds fully against the store of names, then
`orderResource.Read`, run in the world that `Create` left on the state that
`Create` wrote, succeeds: it checks exactly the normalized names, in list
order, each of them was created by `Create` and is in the store, no check
fails, the process is not terminated, and the state is written back
unchanged. -/
theorem create_then_read_succeeds (table : Char → Bool) (clock : String) (epoch : Time)
    (names : List String) (req : ResourceRequest) (resp : ResourceResponse)
    (hne : req.Model.Buckets ≠ [])
    (hdist : (req.Model.Buckets.map (fun item => removeQuotes (item.Name.String table))).Nodup)
    (hplain : ∀ item ∈ req.Model.Buckets, '\\' ∉ (removeQuotes (item.Name.String table)).data)
    (hget : Diagnostics.HasError (Diagnostics.Append resp.Diagnostics req.GetDiags) = false)
    (hall : ∀ e ∈ (orderResource.Create table (storeWorld clock epoch) names req resp).trace,
      e.err = none) :
    ∃ m, (orderResource.Create table (storeWorld clock epoch) names req resp).resp.State = some m ∧
      (∀ item ∈ req.Model.Buckets,
        ⟨S3Call.CreateBucket (removeQuotes (item.Name.String table)), none⟩ ∈
            (orderResource.Create table (storeWorld clock epoch) names req resp).trace ∧
          removeQuotes (item.Name.String table) ∈
            (orderResource.Create table (storeWorld clock epoch) names req resp).world) ∧
      ∀ (getDiags : List Diagnostic) (readResp : ResourceResponse),
        Diagnostics.HasError (Diagnostics.Append readResp.Diagnostics getDiags) = false →
        (orderResource.Read table (storeWorld clock epoch)
            (orderResource.Create table (storeWorld clock epoch) names req resp).world
            ⟨m, getDiags⟩ readResp).exit = none ∧
          (orderResource.Read table (storeWorld clock epoch)
            (orderResource.Create table (storeWorld clock epoch) names req resp).world
            ⟨m, getDiags⟩ readResp).trace =
            req.Model.Buckets.map (fun item =>
              ⟨S3Call.HeadBucket (removeQuotes (item.Name.String table)), none⟩) ∧
          (orderResource.Read table (storeWorld clock epoch)
            (orderResource.Create table (storeWorld clock epoch) names req resp).world
            ⟨m, getDiags⟩ readResp).resp.State = some m := by
  have _ := hne
  have _ := hdist
  obtain ⟨hflag, htrace, m, hstate, hfa⟩ :=
    create_success table (storeWorld clock epoch) names req resp hget hall
  obtain ⟨_, hmem⟩ := store_createLoop_mem table clock epoch req.Model.Buckets 0 _ hflag
  have hworld : (orderResource.Create table (storeWorld clock epoch) names req resp).world =
      (createLoop table (storeWorld clock epoch) req.Model.Buckets 0
        (loopStart names (Diagnostics.Append resp.Diagnostics req.GetDiags)
          req.Model.Buckets)).1.world := by
    rw [create_of_completed table _ names req resp hget hflag]
    rfl
  have hnames : m.Buckets.map (awsStringBucket table) =
      req.Model.Buckets.map (awsStringBucket table) := by
    symm
    refine forall₂_map_eq hfa ?_
    intro item b hitem hrec
    unfold awsStringBucket
    rw [hrec.1]
    exact (renormalize_of_no_backslash table item.Name (hplain item hitem)).symm
  refine ⟨m, hstate, ?_, ?_⟩
  · intro item hitem
    constructor
    · rw [htrace, List.mem_flatMap]
      exact ⟨item, hitem, by simp [createEvents, awsStringBucket]⟩
    · rw [hworld]
      exact hmem item hitem
  · intro getDiags readResp hrget
    have hin : ∀ b ∈ m.Buckets, awsStringBucket table b ∈
        (orderResource.Create table (storeWorld clock epoch) names req resp).world := by
      intro b hb
      have h1 : awsStringBucket table b ∈ m.Buckets.map (awsStringBucket table) :=
        List.mem_map_of_mem _ hb
      rw [hnames] at h1
      obtain ⟨item, hitem, heq⟩ := List.mem_map.mp h1
      rw [← heq, hworld]
      exact hmem item hitem
    have hloop := store_readLoop_ok table clock epoch m.Buckets _ [] hin
    have hev : m.Buckets.map (headEvent table) =
        req.Model.Buckets.map (fun item =>
          (⟨S3Call.HeadBucket (removeQuotes (item.Name.String table)), none⟩ : Event)) := by
      have := congrArg (List.map (fun n => (⟨S3Call.HeadBucket n, none⟩ : Event))) hnames
      simpa [List.map_map, Function.comp_def, headEvent, awsStringBucket] using this
    simp only [orderResource.Read, hrget, Bool.false_eq_true, if_false, hloop, List.nil_append,
      Diagnostics.append_nil, hev, and_self]


/-- The amended C5 at three items created in the empty store. -/
theorem create_then_read_succeeds_witness :
    ∃ m, (orderResource.Create allPrintable (storeWorld scriptOk.clock sampleEpoch) []
        (requestOf threeItems) freshResponse).resp.State = some m ∧
      (∀ item ∈ (requestOf threeItems).Model.Buckets,
        ⟨S3Call.CreateBucket (removeQuotes (item.Name.String allPrintable)), none⟩ ∈
            (orderResource.Create allPrintable (storeWorld scriptOk.clock sampleEpoch) []
              (requestOf threeItems) freshResponse).trace ∧
          removeQuotes (item.Name.String allPrintable) ∈
            (orderResource.Create allPrintable (storeWorld scriptOk.clock sampleEpoch) []
              (requestOf threeItems) freshResponse).world) ∧
      ∀ (getDiags : List Diagnostic) (readResp : ResourceResponse),
        Diagnostics.HasError (Diagnostics.Append readResp.Diagnostics getDiags) = false →
        (orderResource.Read allPrintable (storeWorld scriptOk.clock sampleEpoch)
            (orderResource.Create allPrintable (storeWorld scriptOk.clock sampleEpoch) []
              (requestOf threeItems) freshResponse).world
            ⟨m, getDiags⟩ readResp).exit = none ∧
          (orderResource.Read allPrintable (storeWorld scriptOk.clock sampleEpoch)
            (orderResource.Create allPrintable (storeWorld scriptOk.clock sampleEpoch) []
              (requestOf threeItems) freshResponse).world
            ⟨m, getDiags⟩ readResp).trace =
            (requestOf threeItems).Model.Buckets.map (fun item =>
              ⟨S3Call.HeadBucket (removeQuotes (item.Name.String allPrintable)), none⟩) ∧
          (orderResource.Read allPrintable (storeWorld scriptOk.clock sampleEpoch)
            (orderResource.Create allPrintable (storeWorld scriptOk.clock sampleEpoch) []
              (requestOf threeItems) freshResponse).world
            ⟨m, getDiags⟩ readResp).resp.State = some m :=
  create_then_read_succeeds allPrintable scriptOk.clock sampleEpoch [] (requestOf threeItems)
    freshResponse (by decide) (by decide) (by decide) (by decide) (by decide)

/-- C5 fails as stated: for the one desired name `data\2024`, `Create`
succeeds fully against the empty store and creates the bucket `data\\2024`
(the rendering doubles the backslash); `Read`, run on the state that `Create`
wrote, renders that name again, checks `data\\\\2024`, which nobody created,
and terminates the process with exit code 1. -/
theorem create_then_read_aborts :
    [desiredItem "data\\2024" "team=a"] ≠ [] ∧
      ([desiredItem "data\\2024" "team=a"].map
        (fun item => removeQuotes (item.Name.String allPrintable))).Nodup ∧
      (∀ e ∈ (orderResource.Create allPrintable (storeWorld scriptOk.clock sampleEpoch) []
        (requestOf [desiredItem "data\\2024" "team=a"]) freshResponse).trace, e.err = none) ∧
      (orderResource.Create allPrintable (storeWorld scriptOk.clock sampleEpoch) []
        (requestOf [desiredItem "data\\2024" "team=a"]) freshResponse).world = ["data\\\\2024"] ∧
      (readAfterCreate allPrintable (storeWorld scriptOk.clock sampleEpoch) []
        (requestOf [desiredItem "data\\2024" "team=a"]) freshResponse).map
          (fun pass => (pass.exit, pass.trace)) =
        some (some 1, [⟨S3Call.HeadBucket "data\\\\\\\\2024", some "NotFound"⟩]) := by
  decide

/-! ## The data source -/

theorem listLoop_eq (buckets : List Bucket) (state : bucketDataSourceModel) :
    listLoop buckets state = { Buckets := state.Buckets ++ buckets.map listedBucket } := by
  induction buckets generalizing state with
  | nil => simp [listLoop]
  | cons b bs ih => simp [listLoop, ih, listedBucket]

theorem digit_range (n : Nat) : 48 ≤ (digit n).toNat ∧ (digit n).toNat ≤ 57 := by
  have h : ∀ k, k < 10 → 48 ≤ (Char.ofNat (48 + k)).toNat ∧ (Char.ofNat (48 + k)).toNat ≤ 57 := by
    decide
  exact h (n % 10) (Nat.mod_lt _ (by decide))

theorem appendInt_two (n : Nat) (h : n < 100) :
    appendInt (n : Int) 2 = [digit (n / 10), digit n] := by
  have h0 : ¬ ((n : Int) < 0) := by omega
  simp [appendInt, h0, h]

theorem appendInt_four (y : Int) (h0 : 0 ≤ y) (h : y ≤ 9999) :
    appendInt y 4 =
      [digit (y.natAbs / 1000), digit (y.natAbs / 100), digit (y.natAbs / 10), digit y.natAbs] := by
  have hneg : ¬ (y < 0) := by omega
  have hlt : y.natAbs < 10000 := by omega
  simp [appendInt, hneg, hlt]

theorem format_civil (t : Time) (h : t.civil) :
    t.Format.data =
      [digit (t.Year.natAbs / 1000), digit (t.Year.natAbs / 100), digit (t.Year.natAbs / 10),
        digit t.Year.natAbs, '-', digit (t.Month / 10), digit t.Month, '-',
        digit (t.Day / 10), digit t.Day, ' ', digit (t.Hour / 10), digit t.Hour, ':',
        digit (t.Minute / 10), digit t.Minute, ':', digit (t.Second / 10), digit t.Second] := by
  obtain ⟨h1, h2, h3, h4, h5, h6, h7, h8, h9⟩ := h
  simp only [Time.Format]
  rw [appendInt_four _ h1 h2, appendInt_two _ (by omega), appendInt_two _ (by omega),
    appendInt_two _ (by omega), appendInt_two _ (by omega), appendInt_two _ (by omega)]
  rfl

/-- C6. For every remote inventory that `ListBuckets` returns successfully,
`bucketDataSource.Read` writes to state a sequence of the same length whose
`i`-th record has the name of the `i`-th remote entry, its creation date in
the layout `2006-01-02 15:04:05` and null tags (so the sequence is the
inventory, entry by entry, in the remote order); for a civil time with a
year of four digits the date reads `YYYY-MM-DD HH:MM:SS`, all of them decimal
digits; no diagnostic is added, the process is not terminated, and for an
empty inventory the sequence is empty. -/
theorem datasource_read_lists {σ : Type} (W : World σ) (s : σ) (resp : DataSourceResponse)
    (buckets : List Bucket) (hlist : (W.ListBuckets s).2 = Except.ok buckets) :
    ∃ out, (bucketDataSource.Read W s resp).resp.State = some out ∧
      out.Buckets.length = buckets.length ∧
      (∀ (i : Nat) (bucket : Bucket), buckets[i]? = some bucket →
        out.Buckets[i]? = some
          (bucketModel.mk (types.StringValue bucket.CreationDate.Format)
            (types.StringValue bucket.Name) ⟨ValueState.Null, ""⟩)) ∧
      out.Buckets = buckets.map (fun (bucket : Bucket) =>
          bucketModel.mk (types.StringValue bucket.CreationDate.Format)
            (types.StringValue bucket.Name) ⟨ValueState.Null, ""⟩) ∧
      (∀ t : Time, t.civil →
        t.Format.data =
          [digit (t.Year.natAbs / 1000), digit (t.Year.natAbs / 100), digit (t.Year.natAbs / 10),
            digit t.Year.natAbs, '-', digit (t.Month / 10), digit t.Month, '-',
            digit (t.Day / 10), digit t.Day, ' ', digit (t.Hour / 10), digit t.Hour, ':',
            digit (t.Minute / 10), digit t.Minute, ':', digit (t.Second / 10), digit t.Second] ∧
          ∀ n, 48 ≤ (digit n).toNat ∧ (digit n).toNat ≤ 57) ∧
      (buckets = [] → out.Buckets = []) ∧
      (bucketDataSource.Read W s resp).resp.Diagnostics = resp.Diagnostics ∧
      (bucketDataSource.Read W s resp).trace = [⟨S3Call.ListBuckets, none⟩] ∧
      (bucketDataSource.Read W s resp).exit = none := by
  have hread : bucketDataSource.Read W s resp =
      { world := (W.ListBuckets s).1, trace := [⟨S3Call.ListBuckets, none⟩],
        resp := { Diagnostics := resp.Diagnostics,
                  State := some { Buckets := buckets.map listedBucket } },
        exit := none } := by
    simp only [bucketDataSource.Read, hlist, listLoop_eq, List.nil_append,
      Diagnostics.append_nil]
  rw [hread]
  refine ⟨_, rfl, by simp, ?_, rfl, fun t ht => ⟨format_civil t ht, digit_range⟩, ?_, rfl, rfl,
    rfl⟩
  · intro i bucket hi
    simp [List.getElem?_map, hi, listedBucket, StringValue.zero]
  · intro h
    simp [h]

/-- The statement of C6 at an inventory of two buckets. -/
theorem datasource_read_lists_witness :
    ∃ out, (bucketDataSource.Read { scriptOk with listing := Except.ok sampleInventory }.world
        ⟨0, 0, 0⟩ freshDataSourceResponse).resp.State = some out ∧
      out.Buckets.length = sampleInventory.length ∧
      (∀ (i : Nat) (bucket : Bucket), sampleInventory[i]? = some bucket →
        out.Buckets[i]? = some
          (bucketModel.mk (types.StringValue bucket.CreationDate.Format)
            (types.StringValue bucket.Name) ⟨ValueState.Null, ""⟩)) ∧
      out.Buckets = sampleInventory.map (fun (bucket : Bucket) =>
          bucketModel.mk (types.StringValue bucket.CreationDate.Format)
            (types.StringValue bucket.Name) ⟨ValueState.Null, ""⟩) ∧
      (∀ t : Time, t.civil →
        t.Format.data =
          [digit (t.Year.natAbs / 1000), digit (t.Year.natAbs / 100), digit (t.Year.natAbs / 10),
            digit t.Year.natAbs, '-', digit (t.Month / 10), digit t.Month, '-',
            digit (t.Day / 10), digit t.Day, ' ', digit (t.Hour / 10), digit t.Hour, ':',
            digit (t.Minute / 10), digit t.Minute, ':', digit (t.Second / 10), digit t.Second] ∧
          ∀ n, 48 ≤ (digit n).toNat ∧ (digit n).toNat ≤ 57) ∧
      (sampleInventory = [] → out.Buckets = []) ∧
      (bucketDataSource.Read { scriptOk with listing := Except.ok sampleInventory }.world
        ⟨0, 0, 0⟩ freshDataSourceResponse).resp.Diagnostics = [] ∧
      (bucketDataSource.Read { scriptOk with listing := Except.ok sampleInventory }.world
        ⟨0, 0, 0⟩ freshDataSourceResponse).trace = [⟨S3Call.ListBuckets, none⟩] ∧
      (bucketDataSource.Read { scriptOk with listing := Except.ok sampleInventory }.world
        ⟨0, 0, 0⟩ freshDataSourceResponse).exit = none :=
  datasource_read_lists { scriptOk with listing := Except.ok sampleInventory }.world ⟨0, 0, 0⟩
    freshDataSourceResponse sampleInventory rfl

/-- C8. For every failure of `ListBuckets`, `bucketDataSource.Read` reports
one error diagnostic whose detail is the cause: it is appended at the end of
the diagnostics (the framework keeps one copy of equal diagnostics, so it is
appended unless the response already held that very diagnostic, which a
response without error does not); nothing is written to state, no other call
is made, and the process is not terminated. -/
theorem datasource_read_list_failed {σ : Type} (W : World σ) (s : σ)
    (resp : DataSourceResponse) (err : String)
    (hlist : (W.ListBuckets s).2 = Except.error err) :
    (⟨Severity.Error, "Unable to Read Bucket data", err, none⟩ ∉ resp.Diagnostics →
        (bucketDataSource.Read W s resp).resp.Diagnostics =
          resp.Diagnostics ++ [⟨Severity.Error, "Unable to Read Bucket data", err, none⟩]) ∧
      (Diagnostics.HasError resp.Diagnostics = false →
        (bucketDataSource.Read W s resp).resp.Diagnostics =
          resp.Diagnostics ++ [⟨Severity.Error, "Unable to Read Bucket data", err, none⟩]) ∧
      ⟨Severity.Error, "Unable to Read Bucket data", err, none⟩ ∈
        (bucketDataSource.Read W s resp).resp.Diagnostics ∧
      (bucketDataSource.Read W s resp).resp.State = resp.State ∧
      (bucketDataSource.Read W s resp).trace = [⟨S3Call.ListBuckets, some err⟩] ∧
      (bucketDataSource.Read W s resp).exit = none := by
  have hread : bucketDataSource.Read W s resp =
      { world := (W.ListBuckets s).1, trace := [⟨S3Call.ListBuckets, some err⟩],
        resp := { resp with
          Diagnostics := Diagnostics.AddError resp.Diagnostics "Unable to Read Bucket data" err },
        exit := none } := by
    simp only [bucketDataSource.Read, hlist]
  rw [hread]
  refine ⟨fun h => Diagnostics.append_single h,
    fun h => Diagnostics.addError_of_hasError_false _ _ h, ?_, rfl, rfl, rfl⟩
  by_cases hmem : (⟨Severity.Error, "Unable to Read Bucket data", err, none⟩ : Diagnostic) ∈
      resp.Diagnostics
  · simp [Diagnostics.AddError, Diagnostics.Append, hmem]
  · simp [Diagnostics.AddError, Diagnostics.Append, hmem]

/-- The statement of C8 at a listing refused with `AccessDenied`. -/
theorem datasource_read_list_failed_witness :
    (⟨Severity.Error, "Unable to Read Bucket data", "AccessDenied", none⟩ ∉
          freshDataSourceResponse.Diagnostics →
        (bucketDataSource.Read { scriptOk with listing := Except.error "AccessDenied" }.world
          ⟨0, 0, 0⟩ freshDataSourceResponse).resp.Diagnostics =
          [⟨Severity.Error, "Unable to Read Bucket data", "AccessDenied", none⟩]) ∧
      (Diagnostics.HasError freshDataSourceResponse.Diagnostics = false →
        (bucketDataSource.Read { scriptOk with listing := Except.error "AccessDenied" }.world
          ⟨0, 0, 0⟩ freshDataSourceResponse).resp.Diagnostics =
          [⟨Severity.Error, "Unable to Read Bucket data", "AccessDenied", none⟩]) ∧
      ⟨Severity.Error, "Unable to Read Bucket data", "AccessDenied", none⟩ ∈
        (bucketDataSource.Read { scriptOk with listing := Except.error "AccessDenied" }.world
          ⟨0, 0, 0⟩ freshDataSourceResponse).resp.Diagnostics ∧
      (bucketDataSource.Read { scriptOk with listing := Except.error "AccessDenied" }.world
        ⟨0, 0, 0⟩ freshDataSourceResponse).resp.State = none ∧
      (bucketDataSource.Read { scriptOk with listing := Except.error "AccessDenied" }.world
        ⟨0, 0, 0⟩ freshDataSourceResponse).trace = [⟨S3Call.ListBuckets, some "AccessDenied"⟩] ∧
      (bucketDataSource.Read { scriptOk with listing := Except.error "AccessDenied" }.world
        ⟨0, 0, 0⟩ freshDataSourceResponse).exit = none :=
  datasource_read_list_failed { scriptOk with listing := Except.error "AccessDenied" }.world
    ⟨0, 0, 0⟩ freshDataSourceResponse "AccessDenied" rfl

/-! ## The provider -/

theorem unknownChecks_known (config : cs3ProviderModel) (diags : List Diagnostic)
    (h1 : config.Region.IsUnknown = false) (h2 : config.AccessKey.IsUnknown = false)
    (h3 : config.SecretKey.IsUnknown = false) : unknownChecks config diags = diags := by
  simp [unknownChecks, h1, h2, h3]

theorem missingChecks_eq (region access_key secret_key : String) (diags : List Diagnostic)
    (h : Diagnostics.HasError diags = false) :
    missingChecks region access_key secret_key diags =
      diags ++ missingOf region access_key secret_key := by
  have n1 : missingRegion ∉ diags := Diagnostics.not_mem_of_hasError_false h rfl
  have n2 : missingAccessKey ∉ diags := Diagnostics.not_mem_of_hasError_false h rfl
  have n3 : missingSecretKey ∉ diags := Diagnostics.not_mem_of_hasError_false h rfl
  have d12 : missingAccessKey ≠ missingRegion := by decide
  have d13 : missingSecretKey ≠ missingRegion := by decide
  have d23 : missingSecretKey ≠ missingAccessKey := by decide
  have a1 : ∀ ds, Diagnostics.AddAttributeError ds "region" "Missing Region"
      "The provider cannot create the AWS client as there is a missing or empty value for the Region. "
      = Diagnostics.Append ds [missingRegion] := fun _ => rfl
  have a2 : ∀ ds, Diagnostics.AddAttributeError ds "access_key" "Missing Access Key"
      "The provider cannot create the AWS client as there is a missing or empty value for the Access Key. "
      = Diagnostics.Append ds [missingAccessKey] := fun _ => rfl
  have a3 : ∀ ds, Diagnostics.AddAttributeError ds "secret_key" "Missing Secret Key"
      "The provider cannot create the AWS client as there is a missing or empty value for the Secret Key. "
      = Diagnostics.Append ds [missingSecretKey] := fun _ => rfl
  unfold missingChecks missingOf
  simp only [a1, a2, a3]
  by_cases hr : region = "" <;> by_cases ha : access_key = "" <;> by_cases hs : secret_key = "" <;>
    simp [hr, ha, hs, Diagnostics.Append, n1, n2, n3, d12, d13, d23]

theorem hasError_append (ds es : List Diagnostic) :
    Diagnostics.HasError (ds ++ es) = (Diagnostics.HasError ds || Diagnostics.HasError es) := by
  simp [Diagnostics.HasError]

theorem hasError_missingOf (region access_key secret_key : String) :
    Diagnostics.HasError (missingOf region access_key secret_key) = true ↔
      region = "" ∨ access_key = "" ∨ secret_key = "" := by
  unfold missingOf
  by_cases hr : region = "" <;> by_cases ha : access_key = "" <;> by_cases hs : secret_key = "" <;>
    simp [hr, ha, hs, Diagnostics.HasError, missingRegion, missingAccessKey, missingSecretKey]

theorem resolve_known (declared : StringValue) (env : String)
    (h : declared.IsUnknown = false) :
    resolve declared env = if declared.IsNull then env else declared.value := by
  cases declared with
  | mk state value =>
    cases state <;> simp_all [resolve, StringValue.IsNull, StringValue.IsUnknown,
      StringValue.ValueString]

/-- C7. In `cs3Provider.Configure`, when the configuration is read without
error and its three values are known, region, access key and secret key
each resolve to the declared value when that is not null and to the
environment value otherwise; the pass appends exactly one missing-value
error diagnostic per resolved value that is empty, naming that field, so
that it fails if and only if at least one resolved value is empty; whenever
it fails, `session.NewSession` is not called and no client handle is handed
to the data source or the resource, and otherwise `session.NewSession` is
called once, with the three resolved values. -/
theorem configure_missing_credentials {κ : Type} (H : ProviderHost κ) (req : ConfigureRequest)
    (resp : ConfigureResponse κ)
    (hget : Diagnostics.HasError (Diagnostics.Append resp.Diagnostics req.GetDiags) = false)
    (hr : req.Config.Region.IsUnknown = false)
    (ha : req.Config.AccessKey.IsUnknown = false)
    (hs : req.Config.SecretKey.IsUnknown = false) :
    ∃ region access_key secret_key : String,
      region = (if req.Config.Region.IsNull then H.Getenv "AWS_REGION"
        else req.Config.Region.value) ∧
      access_key = (if req.Config.AccessKey.IsNull then H.Getenv "AWS_ACCESS_KEY_ID"
        else req.Config.AccessKey.value) ∧
      secret_key = (if req.Config.SecretKey.IsNull then H.Getenv "AWS_SECRET_ACCESS_KEY"
        else req.Config.SecretKey.value) ∧
      (cs3Provider.Configure H req resp).resp.Diagnostics =
        Diagnostics.Append resp.Diagnostics req.GetDiags ++
          ((if region = "" then [missingRegion] else []) ++
            (if access_key = "" then [missingAccessKey] else []) ++
            (if secret_key = "" then [missingSecretKey] else [])) ∧
      (Diagnostics.HasError (cs3Provider.Configure H req resp).resp.Diagnostics = true ↔
        region = "" ∨ access_key = "" ∨ secret_key = "") ∧
      (region = "" ∨ access_key = "" ∨ secret_key = "" →
        (cs3Provider.Configure H req resp).sessions = [] ∧
        (cs3Provider.Configure H req resp).resp.DataSourceData = resp.DataSourceData ∧
        (cs3Provider.Configure H req resp).resp.ResourceData = resp.ResourceData) ∧
      (¬ (region = "" ∨ access_key = "" ∨ secret_key = "") →
        (cs3Provider.Configure H req resp).sessions = [(region, access_key, secret_key)]) := by
  refine ⟨resolve req.Config.Region (H.Getenv "AWS_REGION"),
    resolve req.Config.AccessKey (H.Getenv "AWS_ACCESS_KEY_ID"),
    resolve req.Config.SecretKey (H.Getenv "AWS_SECRET_ACCESS_KEY"),
    resolve_known _ _ hr, resolve_known _ _ ha, resolve_known _ _ hs, ?_⟩
  generalize hR : resolve req.Config.Region (H.Getenv "AWS_REGION") = region
  generalize hA : resolve req.Config.AccessKey (H.Getenv "AWS_ACCESS_KEY_ID") = access_key
  generalize hS : resolve req.Config.SecretKey (H.Getenv "AWS_SECRET_ACCESS_KEY") = secret_key
  have hm := missingChecks_eq region access_key secret_key _ hget
  have herr : Diagnostics.HasError (Diagnostics.Append resp.Diagnostics req.GetDiags ++
      missingOf region access_key secret_key) = true ↔
      region = "" ∨ access_key = "" ∨ secret_key = "" := by
    rw [hasError_append, hget, Bool.false_or]
    exact hasError_missingOf region access_key secret_key
  by_cases hempty : region = "" ∨ access_key = "" ∨ secret_key = ""
  · have hE := herr.mpr hempty
    simp only [cs3Provider.Configure, hget, Bool.false_eq_true, if_false,
      unknownChecks_known _ _ hr ha hs, hR, hA, hS, hm]
    rw [if_pos hE]
    exact ⟨rfl, herr, fun _ => ⟨rfl, rfl, rfl⟩, fun h => absurd hempty h⟩
  · have hE : Diagnostics.HasError (Diagnostics.Append resp.Diagnostics req.GetDiags ++
        missingOf region access_key secret_key) = false := by
      cases hb : Diagnostics.HasError (Diagnostics.Append resp.Diagnostics req.GetDiags ++
        missingOf region access_key secret_key) with
      | false => rfl
      | true => exact absurd (herr.mp hb) hempty
    cases hsess : H.NewSession region access_key secret_key with
    | error e =>
      simp only [cs3Provider.Configure, hget, Bool.false_eq_true, if_false,
        unknownChecks_known _ _ hr ha hs, hR, hA, hS, hm, hsess]
      rw [if_neg (by rw [hE]; simp)]
      exact ⟨rfl, herr, fun h => absurd h hempty, fun _ => rfl⟩
    | ok client =>
      simp only [cs3Provider.Configure, hget, Bool.false_eq_true, if_false,
        unknownChecks_known _ _ hr ha hs, hR, hA, hS, hm, hsess]
      rw [if_neg (by rw [hE]; simp)]
      exact ⟨rfl, herr, fun h => absurd h hempty, fun _ => rfl⟩

/-- The statement of C7 at a configuration without access key and an empty environment. -/
theorem configure_missing_credentials_witness :
    ∃ region access_key secret_key : String,
      region = (if sampleConfig.Config.Region.IsNull then sampleHost.Getenv "AWS_REGION"
        else sampleConfig.Config.Region.value) ∧
      access_key = (if sampleConfig.Config.AccessKey.IsNull then
          sampleHost.Getenv "AWS_ACCESS_KEY_ID"
        else sampleConfig.Config.AccessKey.value) ∧
      secret_key = (if sampleConfig.Config.SecretKey.IsNull then
          sampleHost.Getenv "AWS_SECRET_ACCESS_KEY"
        else sampleConfig.Config.SecretKey.value) ∧
      (cs3Provider.Configure sampleHost sampleConfig freshConfigureResponse).resp.Diagnostics =
        Diagnostics.Append freshConfigureResponse.Diagnostics sampleConfig.GetDiags ++
          ((if region = "" then [missingRegion] else []) ++
            (if access_key = "" then [missingAccessKey] else []) ++
            (if secret_key = "" then [missingSecretKey] else [])) ∧
      (Diagnostics.HasError
          (cs3Provider.Configure sampleHost sampleConfig freshConfigureResponse).resp.Diagnostics
          = true ↔
        region = "" ∨ access_key = "" ∨ secret_key = "") ∧
      (region = "" ∨ access_key = "" ∨ secret_key = "" →
        (cs3Provider.Configure sampleHost sampleConfig freshConfigureResponse).sessions = [] ∧
        (cs3Provider.Configure sampleHost sampleConfig freshConfigureResponse).resp.DataSourceData
          = freshConfigureResponse.DataSourceData ∧
        (cs3Provider.Configure sampleHost sampleConfig freshConfigureResponse).resp.ResourceData
          = freshConfigureResponse.ResourceData) ∧
      (¬ (region = "" ∨ access_key = "" ∨ secret_key = "") →
        (cs3Provider.Configure sampleHost sampleConfig freshConfigureResponse).sessions =
          [(region, access_key, secret_key)]) :=
  configure_missing_credentials sampleHost sampleConfig freshConfigureResponse
    (by decide) (by decide) (by decide) (by decide)

/-- The statement of C1 at three items, the create call of the second one failing. -/
theorem create_stops_at_failed_create_witness :
    (orderResource.Create allPrintable (failCreateAt 1 "BucketAlreadyExists").world ⟨0, 0, 0⟩
        (requestOf threeItems) freshResponse).trace =
        [⟨S3Call.CreateBucket "alpha", none⟩,
         ⟨S3Call.PutBucketTagging "alpha" [⟨"tfkey", "team=a"⟩], none⟩,
         ⟨S3Call.CreateBucket "beta", some "BucketAlreadyExists"⟩] ∧
      (orderResource.Create allPrintable (failCreateAt 1 "BucketAlreadyExists").world ⟨0, 0, 0⟩
        (requestOf threeItems) freshResponse).trace.length = 3 ∧
      (orderResource.Create allPrintable (failCreateAt 1 "BucketAlreadyExists").world ⟨0, 0, 0⟩
        (requestOf threeItems) freshResponse).resp.Diagnostics =
        [createFailed "BucketAlreadyExists"] ∧
      (orderResource.Create allPrintable (failCreateAt 1 "BucketAlreadyExists").world ⟨0, 0, 0⟩
        (requestOf threeItems) freshResponse).resp.State = none ∧
      (orderResource.Create allPrintable (failCreateAt 1 "BucketAlreadyExists").world ⟨0, 0, 0⟩
        (requestOf threeItems) freshResponse).exit = none :=
  create_stops_at_failed_create allPrintable (failCreateAt 1 "BucketAlreadyExists")
    (requestOf threeItems) freshResponse 1 (desiredItem "beta" "team=b") "BucketAlreadyExists"
    (by decide) (by decide) (by decide) (by decide)

end CustomS3
